import Mathlib

/-!
Verification development for the `@axivo/mcp-slack` Slack MCP server.

The TypeScript sources are shallowly embedded as executable Lean
definitions:

* `Value` models the JSON-ish JavaScript values flowing through the
  server (API responses, tool arguments, content envelopes).
* `ClientState` models the mutable state of `SlackClient` (the
  `rateLimiter` map, the `userCache` map and `cacheExpiry`).
* All eleven `SlackClient` API operations are embedded as pure
  functions from an API oracle (`SlackApi`, standing for the remote
  Slack HTTP endpoints), the environment, the current time
  (`Date.now()` in milliseconds) and a `ClientState`, to
  `Except String (ClientState × List Req × Value)`.  A thrown
  JavaScript `Error` is an `Except.error` carrying the message; the
  `List Req` component records exactly the outbound `fetch` calls the
  operation performed, so an `Except.error` result by construction
  performed no network call.
* The regex-based text pipeline (`formatText`, `resolveMentions`,
  `validateUrls`, malicious-content stripping) is embedded by
  fuel-based scanners that mirror the semantics of the concrete
  JavaScript regexes used by the source (global replacement, lazy
  quantifiers, lookarounds, multiline anchors, dot-excludes-newline).
* The MCP dispatcher of `src/server/mcp.ts` (`SlackMcpServer`) is
  embedded as `handleRequest` together with one handler function per
  registered tool.
-/

namespace Slack

/-! ## JavaScript values -/

/-- A JSON-like JavaScript value.  `undef` models `undefined` (used for
absent properties flowing into template strings). -/
inductive Value where
  | null
  | undef
  | bool (b : Bool)
  | num (n : Int)
  | str (s : String)
  | arr (elems : List Value)
  | obj (fields : List (String × Value))
  deriving Repr, Inhabited

/-- Property access on an object value (`v.k`); `none` models a missing
property (or property access on a non-object, which the embedded code
never performs on primitives). -/
def Value.getField : Value → String → Option Value
  | .obj fields, k => fields.lookup k
  | _, _ => none

/-- JavaScript truthiness of a value. -/
def Value.truthy : Value → Bool
  | .null => false
  | .undef => false
  | .bool b => b
  | .num n => n != 0
  | .str s => !s.isEmpty
  | .arr _ => true
  | .obj _ => true

/-- Truthiness of a possibly-missing value (`undefined` is falsy). -/
def optTruthy (v : Option Value) : Bool :=
  (v.map Value.truthy).getD false

/-- `m.set(k, v)` semantics of a JavaScript `Map` / object-spread
override: an existing key keeps its position and gets the new value, a
new key is appended (keys are unique in a `Map`, so updating the first
occurrence is exact). -/
def entriesSet : List (String × Value) → String → Value → List (String × Value)
  | [], k, v => [(k, v)]
  | (a, b) :: t, k, v =>
    if a == k then (a, v) :: t else (a, b) :: entriesSet t k v

/-! ## Rate limiter (`SlackClient.checkRateLimit`)

`rateLimiter` is a JavaScript `Map<string, number>`: an insertion-ordered
association list with unique keys.  `RATE_LIMIT_WINDOW = 60000`,
`RATE_LIMIT_MAX_REQUESTS = 60`. -/

/-- State of a `SlackClient` instance: the rate-limiter map, the user
directory cache for mention resolution and its expiry timestamp. -/
structure ClientState where
  rateLimiter : List (String × Nat)
  userCache : List (String × Value)
  cacheExpiry : Nat
  deriving Repr

/-- Freshly constructed `SlackClient`: empty maps, `cacheExpiry = 0`. -/
def initialState : ClientState := ⟨[], [], 0⟩

/-- The composite rate-limit key
`` `${endpoint}_${Math.floor(now / RATE_LIMIT_WINDOW)}` ``. -/
def rlKey (endpoint : String) (now : Nat) : String :=
  endpoint ++ "_" ++ Nat.repr (now / 60000)

/-- `this.rateLimiter.get(key) || 0`. -/
def rlGet (m : List (String × Nat)) (k : String) : Nat :=
  (m.lookup k).getD 0

/-- `this.rateLimiter.set(key, v)`: update in place (keys are unique in
a `Map`, so updating the first occurrence is exact) or append. -/
def rlSet : List (String × Nat) → String → Nat → List (String × Nat)
  | [], k, v => [(k, v)]
  | (a, b) :: t, k, v =>
    if a == k then (a, v) :: t else (a, b) :: rlSet t k v

/-- JavaScript `<` on strings: lexicographic comparison of the character
sequences (code-point order, which coincides with the UTF-16 code-unit
order JavaScript uses on the ASCII keys the limiter builds). -/
def jsStrLt : List Char → List Char → Bool
  | [], [] => false
  | [], _ :: _ => true
  | _ :: _, [] => false
  | x :: xs, y :: ys =>
    if x < y then true
    else if y < x then false
    else jsStrLt xs ys

theorem jsStrLt_irrefl : ∀ l : List Char, jsStrLt l l = false
  | [] => rfl
  | x :: xs => by simp [jsStrLt, lt_irrefl, jsStrLt_irrefl xs]

/-- `jsStrLt` agrees with Lean's lexicographic `List.lt` (the order
underlying `String.lt`). -/
theorem jsStrLt_iff : ∀ a b : List Char, jsStrLt a b = true ↔ List.lt a b
  | [], [] => by
    simp only [jsStrLt]
    constructor
    · intro hc; simp at hc
    · intro hlt; cases hlt
  | [], y :: ys => by
    simp only [jsStrLt, true_iff]
    exact List.lt.nil y ys
  | x :: xs, [] => by
    simp only [jsStrLt]
    constructor
    · intro hc; simp at hc
    · intro hlt; cases hlt
  | x :: xs, y :: ys => by
    simp only [jsStrLt]
    by_cases h1 : x < y
    · simp only [if_pos h1, true_iff]
      exact List.lt.head xs ys h1
    · by_cases h2 : y < x
      · simp only [if_neg h1, if_pos h2]
        constructor
        · intro hc; simp at hc
        · intro hlt
          cases hlt with
          | head as bs h => exact absurd h h1
          | tail hxy hyx htl => exact absurd h2 hyx
      · simp only [if_neg h1, if_neg h2]
        rw [jsStrLt_iff xs ys]
        constructor
        · intro hlt; exact List.lt.tail h1 h2 hlt
        · intro hlt
          cases hlt with
          | head as bs h => exact absurd h h1
          | tail hxy hyx htl => exact htl

/-- `jsStrLt` on the character data is the string order. -/
theorem jsStrLt_iff_string (a b : String) : jsStrLt a.data b.data = true ↔ a < b := by
  rw [String.lt_iff_toList_lt]
  exact (jsStrLt_iff a.data b.data).trans (List.lt_iff_lex_lt a.data b.data)

/-- The pruning loop: every entry whose key is lexicographically smaller
(JavaScript `<` on strings) than the caller's composite key is deleted. -/
def rlPrune (m : List (String × Nat)) (key : String) : List (String × Nat) :=
  m.filter (fun p => !(jsStrLt p.1.data key.data))

/-- `SlackClient.checkRateLimit` (the `SlackClient` of the embedded
`server/client.ts`, which throws on a tripped limit): computes the
window key, fails when the recorded count has reached the cap of 60,
otherwise increments the count and prunes all lexicographically smaller
keys. -/
def checkRateLimit (endpoint : String) (now : Nat) (st : ClientState) :
    Except String ClientState :=
  let key := rlKey endpoint now
  let current := rlGet st.rateLimiter key
  if current ≥ 60 then
    .error ("Rate limit exceeded for " ++ endpoint)
  else
    .ok { st with rateLimiter := rlPrune (rlSet st.rateLimiter key (current + 1)) key }

/-! ### Injectivity of the decimal representation of `Nat`

Needed to show that keys of distinct windows are distinct strings. -/

/-- Reference decimal digit list of a natural number (most significant
first), used to characterise `Nat.toDigitsCore`. -/
def decChars (n : Nat) : List Char :=
  if n < 10 then [Nat.digitChar n]
  else decChars (n / 10) ++ [Nat.digitChar (n % 10)]
  decreasing_by exact Nat.div_lt_self (by omega) (by omega)

theorem toDigitsCore_append (f n : Nat) (acc : List Char) :
    Nat.toDigitsCore 10 f n acc = Nat.toDigitsCore 10 f n [] ++ acc := by
  induction f generalizing n acc with
  | zero => simp [Nat.toDigitsCore]
  | succ f ih =>
    simp only [Nat.toDigitsCore]
    by_cases h : n / 10 = 0
    · simp [h]
    · simp only [h, if_false]
      rw [ih (n / 10) (Nat.digitChar (n % 10) :: acc),
        ih (n / 10) [Nat.digitChar (n % 10)]]
      simp

theorem toDigitsCore_eq_decChars (f n : Nat) (h : n < f) :
    Nat.toDigitsCore 10 f n [] = decChars n := by
  induction f generalizing n with
  | zero => omega
  | succ f ih =>
    simp only [Nat.toDigitsCore]
    by_cases h0 : n / 10 = 0
    · have hn : n < 10 := by omega
      rw [decChars]
      simp [h0, hn, Nat.mod_eq_of_lt hn]
    · have hn : ¬ n < 10 := by
        intro hc
        exact h0 (Nat.div_eq_of_lt hc)
      have hdiv : n / 10 < f := by
        have h1 : n / 10 < n := Nat.div_lt_self (by omega) (by omega)
        omega
      rw [decChars]
      simp only [hn, dif_neg, not_false_iff, h0, if_false]
      rw [toDigitsCore_append, ih (n / 10) hdiv]

/-- Recover the numeric value from a decimal digit list. -/
def decValue (l : List Char) : Nat :=
  l.foldl (fun a c => 10 * a + (c.toNat - 48)) 0

theorem digitChar_toNat (m : Nat) (h : m < 10) :
    (Nat.digitChar m).toNat = m + 48 := by
  interval_cases m <;> rfl

theorem decValue_decChars (n : Nat) : decValue (decChars n) = n := by
  induction n using Nat.strong_induction_on with
  | _ n ih =>
    rw [decChars]
    by_cases h : n < 10
    · rw [if_pos h]
      simp [decValue, digitChar_toNat n h]
    · rw [if_neg h]
      have hdiv : n / 10 < n := Nat.div_lt_self (by omega) (by omega)
      simp only [decValue, List.foldl_append, List.foldl_cons, List.foldl_nil]
      have hv := ih (n / 10) hdiv
      simp only [decValue] at hv
      rw [hv, digitChar_toNat (n % 10) (Nat.mod_lt n (by omega))]
      omega

theorem natRepr_injective {m n : Nat} (h : Nat.repr m = Nat.repr n) : m = n := by
  have hdata : (Nat.toDigits 10 m) = (Nat.toDigits 10 n) := by
    have := congrArg String.data h
    simpa [Nat.repr, List.asString] using this
  rw [Nat.toDigits, Nat.toDigits,
    toDigitsCore_eq_decChars (m + 1) m (by omega),
    toDigitsCore_eq_decChars (n + 1) n (by omega)] at hdata
  calc m = decValue (decChars m) := (decValue_decChars m).symm
    _ = decValue (decChars n) := by rw [hdata]
    _ = n := decValue_decChars n

theorem rlKey_window_injective {e : String} {t t' : Nat}
    (h : rlKey e t = rlKey e t') : t / 60000 = t' / 60000 := by
  have hdata := congrArg String.data h
  simp only [rlKey, String.data_append] at hdata
  have h1 : (Nat.repr (t / 60000)).data = (Nat.repr (t' / 60000)).data :=
    List.append_cancel_left hdata
  exact natRepr_injective (String.ext h1)

theorem rlKey_next_window_ne (e : String) (t : Nat) :
    rlKey e (t + 60000) ≠ rlKey e t := by
  intro h
  have := rlKey_window_injective h
  rw [Nat.add_div_right t (by omega)] at this
  omega

/-! ## Character classes (JavaScript regex semantics) -/

def isAsciiLetter (c : Char) : Bool :=
  ('A' ≤ c && c ≤ 'Z') || ('a' ≤ c && c ≤ 'z')

/-- JavaScript `\s`. -/
def isJsWs (c : Char) : Bool :=
  c == ' ' || c == '\t' || c == '\n' || c == '\r' ||
  c.toNat == 11 || c.toNat == 12 || c.toNat == 0xa0 || c.toNat == 0x1680 ||
  (0x2000 ≤ c.toNat && c.toNat ≤ 0x200a) ||
  c.toNat == 0x2028 || c.toNat == 0x2029 || c.toNat == 0x202f ||
  c.toNat == 0x205f || c.toNat == 0x3000 || c.toNat == 0xfeff

/-- JavaScript line terminators (excluded by `.` and matched by `^`/`$`
in multiline mode). -/
def isLineTerm (c : Char) : Bool :=
  c == '\n' || c == '\r' || c.toNat == 0x2028 || c.toNat == 0x2029

/-- JavaScript `\w`. -/
def isWordChar (c : Char) : Bool := isAsciiLetter c || c.isDigit || c == '_'

/-- `String.prototype.toLowerCase` (character-wise ASCII lowering; the
embedded code only lowercases ASCII names, schemes and hostnames). -/
def jsToLower (s : String) : String := ⟨s.data.map Char.toLower⟩

/-- `String.prototype.trim`: strip leading and trailing whitespace. -/
def jsTrim (s : String) : String :=
  ⟨((s.data.dropWhile isJsWs).reverse.dropWhile isJsWs).reverse⟩

/-- `s.split(',')` (keeps empty pieces, as JavaScript does). -/
def splitCommaAux : List Char → List Char → List String
  | [], acc => [⟨acc.reverse⟩]
  | ',' :: t, acc => (⟨acc.reverse⟩ : String) :: splitCommaAux t []
  | c :: t, acc => splitCommaAux t (c :: acc)

def splitOnComma (s : String) : List String := splitCommaAux s.data []

/-- `hay` contains `sub` as a contiguous sublist (`String.includes`). -/
def listHasSub : List Char → List Char → Bool
  | [], needle => needle.isEmpty
  | c :: t, needle => needle.isPrefixOf (c :: t) || listHasSub t needle

/-- `hay.includes(sub)` on strings. -/
def containsSub (hay sub : String) : Bool := listHasSub hay.data sub.data

/-- Index of the first occurrence of `pat` in `hay`. -/
def firstIdx : List Char → List Char → Option Nat
  | [], pat => if pat.isEmpty then some 0 else none
  | c :: t, pat =>
    if pat.isPrefixOf (c :: t) then some 0 else (firstIdx t pat).map (· + 1)

/-- Expansion of `$`-patterns in a string replacement (JavaScript
`String.prototype.replace` GetSubstitution with no capture groups:
dollar-dollar, dollar-ampersand, dollar-backquote and dollar-quote are
special; any other `$` stays literal). -/
def substExpand (matched before after : List Char) : List Char → List Char
  | [] => []
  | '$' :: t =>
    match t with
    | [] => ['$']
    | '$' :: t' => '$' :: substExpand matched before after t'
    | '&' :: t' => matched ++ substExpand matched before after t'
    | '\'' :: t' => after ++ substExpand matched before after t'
    | c :: t' =>
      if c.toNat == 96 then before ++ substExpand matched before after t'
      else '$' :: substExpand matched before after (c :: t')
  | c :: t => c :: substExpand matched before after t

/-- `s.replace(pat, repl)` with a string pattern: replaces the first
occurrence only. -/
def jsReplaceFirst (s pat repl : String) : String :=
  match firstIdx s.data pat.data with
  | none => s
  | some i =>
    let before := s.data.take i
    let after := s.data.drop (i + pat.data.length)
    ⟨before ++ substExpand pat.data before after repl.data ++ after⟩

/-! ## The mention regex of `resolveMentions`

`/@([A-Za-z][A-Za-z\s]*[A-Za-z]|[A-Za-z])/g` — note that `[A-Za-z\s]*`
greedily runs through spaces, so a match extends to the last letter of
the letters-and-whitespace run following the `@`. -/

/-- The capture at a position where the char after `@` is a letter:
the greedy run truncated to its last letter if that gives length ≥ 2
(first alternative), else the single leading letter (second
alternative). -/
def mentionCapture (run : List Char) : List Char :=
  let trimmed := (run.reverse.dropWhile (fun c => !isAsciiLetter c)).reverse
  if 2 ≤ trimmed.length then trimmed else run.take 1

/-- All matches of the global mention regex in scanning order
(`text.match(mentionRegex)`). -/
def mentionScan : Nat → List Char → List String
  | 0, _ => []
  | _, [] => []
  | fuel + 1, '@' :: rest =>
    match rest with
    | [] => []
    | c :: _ =>
      if isAsciiLetter c then
        let run := rest.takeWhile (fun d => isAsciiLetter d || isJsWs d)
        let cap := mentionCapture run
        (⟨'@' :: cap⟩ : String) :: mentionScan fuel (rest.drop cap.length)
      else mentionScan fuel rest
  | fuel + 1, _ :: rest => mentionScan fuel rest

def mentionMatches (s : String) : List String :=
  mentionScan (s.data.length + 1) s.data

/-! ## URL extraction and validation (`SlackClient.validateUrls`) -/

/-- Case-insensitive ASCII character comparison (regex `i` flag). -/
def ciEq (c d : Char) : Bool := c.toLower == d.toLower

/-- `pat` is a case-insensitive prefix of `cs`. -/
def ciPrefix : List Char → List Char → Bool
  | [], _ => true
  | _ :: _, [] => false
  | p :: ps, c :: cs => ciEq c p && ciPrefix ps cs

/-- One attempt of the scheme part of `/https?:\/\/[^\s)]+/gi` at the
head of `cs`: the matched scheme prefix (original spelling, greedy
optional `s` first) and the remainder. -/
def urlSchemeHead (cs : List Char) : Option (List Char × List Char) :=
  if ciPrefix "https://".data cs then some (cs.take 8, cs.drop 8)
  else if ciPrefix "http://".data cs then some (cs.take 7, cs.drop 7)
  else none

/-- All matches of `/https?:\/\/[^\s)]+/gi` in scanning order. -/
def directUrlScan : Nat → List Char → List String
  | 0, _ => []
  | _, [] => []
  | fuel + 1, c :: t =>
    match urlSchemeHead (c :: t) with
    | some (pre, rest) =>
      let run := rest.takeWhile (fun d => !isJsWs d && d != ')')
      if run.isEmpty then directUrlScan fuel t
      else (⟨pre ++ run⟩ : String) :: directUrlScan fuel (rest.drop run.length)
    | none => directUrlScan fuel t

/-- All second capture groups of `/\[([^\]]+)\]\(([^)]+)\)/g`
(markdown-link targets) in scanning order. -/
def markdownUrlScan : Nat → List Char → List String
  | 0, _ => []
  | _, [] => []
  | fuel + 1, '[' :: t =>
    let cap1 := t.takeWhile (fun d => d != ']')
    if cap1.isEmpty then markdownUrlScan fuel t
    else
      match t.drop cap1.length with
      | ']' :: '(' :: r2 =>
        let cap2 := r2.takeWhile (fun d => d != ')')
        if cap2.isEmpty then markdownUrlScan fuel t
        else
          match r2.drop cap2.length with
          | ')' :: r4 => (⟨cap2⟩ : String) :: markdownUrlScan fuel r4
          | _ => markdownUrlScan fuel t
      | _ => markdownUrlScan fuel t
  | fuel + 1, _ :: t => markdownUrlScan fuel t

/-- URL extraction of `validateUrls`: all direct matches (pushed first)
followed by all markdown-link targets. -/
def extractUrls (text : String) : List String :=
  directUrlScan (text.data.length + 1) text.data ++
    markdownUrlScan (text.data.length + 1) text.data

/-- Components of a parsed URL that `validateUrls` consumes, as produced
by the WHATWG `URL` constructor: lowercased scheme and hostname, and the
explicit port if present and different from the scheme's default (the
`URL` class serialises a default port as the empty string, which is
falsy and skips the port check). -/
structure UrlParts where
  scheme : String
  hostname : String
  port : Option Nat
  deriving Repr

def defaultSchemePort (scheme : String) : Option Nat :=
  if scheme == "http" || scheme == "ws" then some 80
  else if scheme == "https" || scheme == "wss" then some 443
  else if scheme == "ftp" then some 21
  else none

def isSpecialScheme (scheme : String) : Bool :=
  scheme == "http" || scheme == "https" || scheme == "ws" ||
    scheme == "wss" || scheme == "ftp" || scheme == "file"

/-- Split `scheme:` from the head of an absolute URL. -/
def schemeSplit (cs : List Char) : Option (String × List Char) :=
  match cs with
  | c :: t =>
    if isAsciiLetter c then
      let run := t.takeWhile (fun d =>
        isAsciiLetter d || d.isDigit || d == '+' || d == '-' || d == '.')
      match t.drop run.length with
      | ':' :: rest => some (jsToLower ⟨c :: run⟩, rest)
      | _ => none
    else none
  | [] => none

/-- Split an authority into hostname and optional port text (split at
the last colon; an IPv6 literal in brackets keeps its colons). -/
def splitHostPort (auth : List Char) : List Char × Option (List Char) :=
  if auth.head? = some '[' then
    let inside := auth.takeWhile (fun c => c != ']')
    match auth.drop inside.length with
    | ']' :: ':' :: p => (inside ++ [']'], some p)
    | _ => (auth, none)
  else
    let revRun := auth.reverse.takeWhile (fun c => c != ':')
    if revRun.length == auth.length then (auth, none)
    else (auth.take (auth.length - revRun.length - 1), some revRun.reverse)

/-- Numeric value of a decimal digit run. -/
def digitsToNat (ds : List Char) : Nat :=
  ds.foldl (fun a c => 10 * a + (c.toNat - 48)) 0

/-- Model of the WHATWG `URL` constructor as invoked by `validateUrls`
(`new URL(url)` on the extracted absolute URLs): `none` models a thrown
`TypeError`.  Percent-decoding and IDNA of hostnames are not modelled;
the hostname is lowercased, a special scheme requires a non-empty host,
the port must be numeric and at most 65535, and a default port is
normalised away. -/
def parseUrl (url : String) : Option UrlParts :=
  match schemeSplit url.data with
  | none => none
  | some (scheme, rest) =>
    let special := isSpecialScheme scheme
    if special || rest.take 2 == ['/', '/'] then
      let afterSlashes :=
        if special then rest.dropWhile (fun c => c == '/' || c == '\\')
        else rest.drop 2
      let auth := afterSlashes.takeWhile (fun c =>
        c != '/' && c != '?' && c != '#' && (!special || c != '\\'))
      let hostPort := (auth.reverse.takeWhile (fun c => c != '@')).reverse
      let (hostC, portC) := splitHostPort hostPort
      let host := jsToLower ⟨hostC⟩
      if hostC.isEmpty && special && scheme != "file" then none
      else
        match portC with
        | none => some ⟨scheme, host, none⟩
        | some [] => some ⟨scheme, host, none⟩
        | some ds =>
          if ds.all (fun c => c.isDigit) then
            let n := digitsToNat ds
            if n > 65535 then none
            else if defaultSchemePort scheme = some n then some ⟨scheme, host, none⟩
            else some ⟨scheme, host, some n⟩
          else none
    else
      some ⟨scheme, "", none⟩

/-- Default blocked link-shortener domains of `server/client.ts`. -/
def suspiciousDomains : List String :=
  ["bit.ly", "goo.gl", "ngrok.com", "ngrok.io", "tinyurl.com"]

/-- Environment configuration consumed by `SlackClient` (`process.env`). -/
structure Env where
  teamId : String
  channelIds : Option String
  suspiciousDomainsEnv : Option String
  deriving Repr

/-- The blocked-domain list: `SLACK_SUSPICIOUS_DOMAINS` split on commas
and trimmed when set and non-empty (truthy), else the default list. -/
def domainsOf (env : Env) : List String :=
  match env.suspiciousDomainsEnv with
  | some s =>
    if s.isEmpty then suspiciousDomains else (splitOnComma s).map jsTrim
  | none => suspiciousDomains

/-- The per-URL body of the `validateUrls` loop: invalid URLs, blocked
domains (hostname contains a blocked substring) and explicit ports
outside 80/443/8080/8443 throw. -/
def urlCheck (domains : List String) (url : String) : Except String Unit :=
  match parseUrl url with
  | none => .error ("Invalid URL detected: " ++ url)
  | some p =>
    if domains.any (fun sus => containsSub p.hostname sus) then
      .error ("Suspicious domain detected: " ++ p.hostname)
    else
      match p.port with
      | some n =>
        if n == 80 || n == 443 || n == 8080 || n == 8443 then .ok ()
        else .error ("Non-standard port detected: " ++ Nat.repr n)
      | none => .ok ()

/-- The `for (const url of urls)` loop of `validateUrls`: stops at the
first thrown error. -/
def urlsCheckLoop (domains : List String) : List String → Except String Unit
  | [] => .ok ()
  | u :: rest =>
    match urlCheck domains u with
    | .error m => .error m
    | .ok _ => urlsCheckLoop domains rest

/-- `SlackClient.validateUrls`. -/
def validateUrls (domains : List String) (text : String) : Except String Unit :=
  urlsCheckLoop domains (extractUrls text)

/-! ## `SlackClient.formatText`

The sixteen chained global `.replace` rules, each embedded as a scanner
over the character list.  Every scanner consumes at least one input
character per step, so a fuel of `length + 1` never runs out.  Scanners
with a `Bool` argument track the multiline `^` anchor: whether the
position follows a line terminator (or starts the string). -/

/-- Rule 1: `^#{1,6}\s+(.+)$` /gm → `*$1*`.  `\s+` is greedy and can
cross line terminators; `.` cannot, so the capture is the maximal run of
non-terminator characters after the whitespace when non-empty, else (by
backtracking of the greedy `\s+`) the final whitespace character itself
when it is not a terminator and at least one whitespace remains. -/
def headingScan : Nat → Bool → List Char → List Char
  | 0, _, cs => cs
  | _, _, [] => []
  | fuel + 1, ls, c :: t =>
    if ls && c == '#' then
      let k := ((c :: t).takeWhile (fun d => d == '#')).length
      let after := (c :: t).drop k
      let w := after.takeWhile isJsWs
      let r := (after.drop w.length).takeWhile (fun d => !isLineTerm d)
      if k ≤ 6 && !w.isEmpty && !r.isEmpty then
        '*' :: (r ++ '*' :: headingScan fuel false ((c :: t).drop (k + w.length + r.length)))
      else
        match w.getLast? with
        | some wl =>
          if k ≤ 6 && 2 ≤ w.length && r.isEmpty && !isLineTerm wl then
            '*' :: wl :: '*' :: headingScan fuel false ((c :: t).drop (k + w.length))
          else c :: headingScan fuel false t
        | none => c :: headingScan fuel false t
    else c :: headingScan fuel (isLineTerm c) t

/-- Minimal lazy split `cs = cap ++ closeD ++ rest` with `cap` free of
line terminators: the lazy `(.*?)` before a literal close delimiter. -/
def lazyFind (closeD : List Char) : List Char → Option (List Char × List Char)
  | [] => if closeD.isEmpty then some ([], []) else none
  | c :: t =>
    if closeD.isPrefixOf (c :: t) then some ([], (c :: t).drop closeD.length)
    else if isLineTerm c then none
    else (lazyFind closeD t).map (fun p => (c :: p.1, p.2))

/-- Global replacement of `openD (.*?) closeD` by `pre ++ $1 ++ post`
(rules 2, 3 and 5). -/
def pairScan (openD closeD pre post : List Char) : Nat → List Char → List Char
  | 0, cs => cs
  | _, [] => []
  | fuel + 1, c :: t =>
    if openD.isPrefixOf (c :: t) then
      match lazyFind closeD ((c :: t).drop openD.length) with
      | some (cap, rest) =>
        pre ++ cap ++ post ++ pairScan openD closeD pre post fuel rest
      | none => c :: pairScan openD closeD pre post fuel t
    else c :: pairScan openD closeD pre post fuel t

/-- The lazy close search of `(?<!\*)\*(.*?)\*(?!\*)`: minimal capture
such that a closing `*` follows whose next character is not `*`; a
failed lookahead makes the lazy capture absorb the candidate star. -/
def italicFind : List Char → Option (List Char × List Char)
  | [] => none
  | '*' :: t =>
    if t.head? == some '*' then (italicFind t).map (fun p => ('*' :: p.1, p.2))
    else some ([], t)
  | c :: t =>
    if isLineTerm c then none
    else (italicFind t).map (fun p => (c :: p.1, p.2))

/-- Rule 4: global `(?<!\*)\*(.*?)\*(?!\*)` → `_$1_`; `prev` is the
original character preceding the scan position (the lookbehind). -/
def italicScan : Nat → Option Char → List Char → List Char
  | 0, _, cs => cs
  | _, _, [] => []
  | fuel + 1, prev, c :: t =>
    if c == '*' && prev != some '*' then
      match italicFind t with
      | some (cap, rest) => '_' :: cap ++ '_' :: italicScan fuel (some '*') rest
      | none => c :: italicScan fuel (some c) t
    else c :: italicScan fuel (some c) t

/-- Rule 6: `^[-*+]\s+` /gm → `• ` (the greedy `\s+` can cross line
terminators). -/
def bulletScan : Nat → Bool → List Char → List Char
  | 0, _, cs => cs
  | _, _, [] => []
  | fuel + 1, ls, c :: t =>
    if ls && (c == '-' || c == '*' || c == '+') then
      let w := t.takeWhile isJsWs
      match w.getLast? with
      | some wl => '•' :: ' ' :: bulletScan fuel (isLineTerm wl) (t.drop w.length)
      | none => c :: bulletScan fuel false t
    else c :: bulletScan fuel (isLineTerm c) t

/-- Rule 7: `\[([^\]]+)\]\(([^)]+)\)` → `<$2|$1>`. -/
def linkScan : Nat → List Char → List Char
  | 0, cs => cs
  | _, [] => []
  | fuel + 1, '[' :: t =>
    let cap1 := t.takeWhile (fun d => d != ']')
    if cap1.isEmpty then '[' :: linkScan fuel t
    else
      match t.drop cap1.length with
      | ']' :: '(' :: r2 =>
        let cap2 := r2.takeWhile (fun d => d != ')')
        if cap2.isEmpty then '[' :: linkScan fuel t
        else
          match r2.drop cap2.length with
          | ')' :: r4 => '<' :: cap2 ++ '|' :: cap1 ++ '>' :: linkScan fuel r4
          | _ => '[' :: linkScan fuel t
      | _ => '[' :: linkScan fuel t
  | fuel + 1, c :: t => c :: linkScan fuel t

/-- Rule 8: `!\[([^\]]*)\]\(([^)]+)\)` → `Image: <$2|$1>` (the alt-text
capture may be empty). -/
def imageScan : Nat → List Char → List Char
  | 0, cs => cs
  | _, [] => []
  | fuel + 1, '!' :: '[' :: t =>
    let cap1 := t.takeWhile (fun d => d != ']')
    match t.drop cap1.length with
    | ']' :: '(' :: r2 =>
      let cap2 := r2.takeWhile (fun d => d != ')')
      if cap2.isEmpty then '!' :: imageScan fuel ('[' :: t)
      else
        match r2.drop cap2.length with
        | ')' :: r4 => "Image: <".data ++ cap2 ++ '|' :: cap1 ++ '>' :: imageScan fuel r4
        | _ => '!' :: imageScan fuel ('[' :: t)
    | _ => '!' :: imageScan fuel ('[' :: t)
  | fuel + 1, c :: t => c :: imageScan fuel t

/-- The three-backtick code-fence delimiter. -/
def fenceChars : List Char := [Char.ofNat 96, Char.ofNat 96, Char.ofNat 96]

/-- Rule 9: the code-fence rule (three backticks, then `[\w]*`, then a
newline) → fence and newline with the language tag dropped. -/
def fenceScan : Nat → List Char → List Char
  | 0, cs => cs
  | _, [] => []
  | fuel + 1, c :: t =>
    if fenceChars.isPrefixOf (c :: t) then
      let r2 := (c :: t).drop 3
      let w := r2.takeWhile isWordChar
      match r2.drop w.length with
      | '\n' :: r3 => fenceChars ++ '\n' :: fenceScan fuel r3
      | _ => c :: fenceScan fuel t
    else c :: fenceScan fuel t

/-- Rule 10: `^#{1,6}\s+` /gm → deleted. -/
def stripHeadScan : Nat → Bool → List Char → List Char
  | 0, _, cs => cs
  | _, _, [] => []
  | fuel + 1, ls, c :: t =>
    if ls && c == '#' then
      let k := ((c :: t).takeWhile (fun d => d == '#')).length
      let w := ((c :: t).drop k).takeWhile isJsWs
      match w.getLast? with
      | some wl =>
        if k ≤ 6 then
          stripHeadScan fuel (isLineTerm wl) ((c :: t).drop (k + w.length))
        else c :: stripHeadScan fuel false t
      | none => c :: stripHeadScan fuel false t
    else c :: stripHeadScan fuel (isLineTerm c) t

/-- Rule 11: `^---+$` /gm → a heavy horizontal line. -/
def hrScan : Nat → Bool → List Char → List Char
  | 0, _, cs => cs
  | _, _, [] => []
  | fuel + 1, ls, c :: t =>
    if ls && c == '-' then
      let ds := (c :: t).takeWhile (fun d => d == '-')
      let rest := (c :: t).drop ds.length
      if 3 ≤ ds.length && (rest.head?.map isLineTerm).getD true then
        "━━━━━━━━━━".data ++ hrScan fuel false rest
      else c :: hrScan fuel false t
    else c :: hrScan fuel (isLineTerm c) t

/-- Rule 12: `^- \[(x| )\] ` /gm → `• `. -/
def taskScan : Nat → Bool → List Char → List Char
  | 0, _, cs => cs
  | _, _, [] => []
  | fuel + 1, ls, c :: t =>
    if ls && c == '-' then
      match t with
      | ' ' :: '[' :: m :: ']' :: ' ' :: r =>
        if m == 'x' || m == ' ' then '•' :: ' ' :: taskScan fuel false r
        else c :: taskScan fuel false t
      | _ => c :: taskScan fuel false t
    else c :: taskScan fuel (isLineTerm c) t

/-- Rule 13: `\[\^[^\]]+\]` → deleted. -/
def fnRefScan : Nat → List Char → List Char
  | 0, cs => cs
  | _, [] => []
  | fuel + 1, '[' :: t =>
    match t with
    | '^' :: r =>
      let cap := r.takeWhile (fun d => d != ']')
      if cap.isEmpty then '[' :: fnRefScan fuel t
      else
        match r.drop cap.length with
        | ']' :: r2 => fnRefScan fuel r2
        | _ => '[' :: fnRefScan fuel t
    | _ => '[' :: fnRefScan fuel t
  | fuel + 1, c :: t => c :: fnRefScan fuel t

/-- Rule 14: `^\[\^[^\]]+\]:[^\n]+\n?` /gm → deleted. -/
def fnDefScan : Nat → Bool → List Char → List Char
  | 0, _, cs => cs
  | _, _, [] => []
  | fuel + 1, ls, c :: t =>
    if ls && c == '[' then
      match t with
      | '^' :: r =>
        let cap := r.takeWhile (fun d => d != ']')
        if cap.isEmpty then c :: fnDefScan fuel false t
        else
          match r.drop cap.length with
          | ']' :: ':' :: r2 =>
            let body := r2.takeWhile (fun d => d != '\n')
            if body.isEmpty then c :: fnDefScan fuel false t
            else
              match r2.drop body.length with
              | '\n' :: r3 => fnDefScan fuel true r3
              | r3 => fnDefScan fuel false r3
          | _ => c :: fnDefScan fuel false t
      | _ => c :: fnDefScan fuel false t
    else c :: fnDefScan fuel (isLineTerm c) t

/-- Rule 15: `\$([^$]+)\$` → `$1` (the class `[^$]` crosses newlines). -/
def mathScan : Nat → List Char → List Char
  | 0, cs => cs
  | _, [] => []
  | fuel + 1, '$' :: t =>
    let cap := t.takeWhile (fun d => d != '$')
    if cap.isEmpty then '$' :: mathScan fuel t
    else
      match t.drop cap.length with
      | '$' :: r2 => cap ++ mathScan fuel r2
      | _ => '$' :: mathScan fuel t
  | fuel + 1, c :: t => c :: mathScan fuel t

/-- Rule 16: `\$\$([^$]+)\$\$` → `$1`. -/
def math2Scan : Nat → List Char → List Char
  | 0, cs => cs
  | _, [] => []
  | fuel + 1, '$' :: '$' :: t =>
    let cap := t.takeWhile (fun d => d != '$')
    if cap.isEmpty then '$' :: math2Scan fuel ('$' :: t)
    else
      match t.drop cap.length with
      | '$' :: '$' :: r2 => cap ++ math2Scan fuel r2
      | _ => '$' :: math2Scan fuel ('$' :: t)
  | fuel + 1, c :: t => c :: math2Scan fuel t

/-- `SlackClient.formatText`: the sixteen chained `.replace` rules
(GitHub-flavored markdown → Slack mrkdwn) in source order. -/
def formatText (text : String) : String :=
  let s1 := headingScan (text.data.length + 1) true text.data
  let s2 := pairScan "**".data "**".data "*".data "*".data (s1.length + 1) s1
  let s3 := pairScan "__".data "__".data "*".data "*".data (s2.length + 1) s2
  let s4 := italicScan (s3.length + 1) none s3
  let s5 := pairScan "~~".data "~~".data "~".data "~".data (s4.length + 1) s4
  let s6 := bulletScan (s5.length + 1) true s5
  let s7 := linkScan (s6.length + 1) s6
  let s8 := imageScan (s7.length + 1) s7
  let s9 := fenceScan (s8.length + 1) s8
  let s10 := stripHeadScan (s9.length + 1) true s9
  let s11 := hrScan (s10.length + 1) true s10
  let s12 := taskScan (s11.length + 1) true s11
  let s13 := fnRefScan (s12.length + 1) s12
  let s14 := fnDefScan (s13.length + 1) true s13
  let s15 := mathScan (s14.length + 1) s14
  let s16 := math2Scan (s15.length + 1) s15
  ⟨s16⟩

/-! ## Malicious-content stripping (`sanitizeText` replacements) -/

/-- Lazy `.*?` search up to a case-insensitive literal close delimiter,
returning the remainder after the close (`.` excludes line
terminators). -/
def ciLazyFind (closeD : List Char) : List Char → Option (List Char)
  | [] => if closeD.isEmpty then some [] else none
  | c :: t =>
    if ciPrefix closeD (c :: t) then some ((c :: t).drop closeD.length)
    else if isLineTerm c then none
    else ciLazyFind closeD t

/-- The script-tag rule: open tag, `[^>]*` attributes (which may cross
newlines), `>`, lazy body, close tag → `[SCRIPT_REMOVED]`. -/
def scriptScan : Nat → List Char → List Char
  | 0, cs => cs
  | _, [] => []
  | fuel + 1, c :: t =>
    if ciPrefix "<script".data (c :: t) then
      let r1 := (c :: t).drop 7
      let attrs := r1.takeWhile (fun d => d != '>')
      match r1.drop attrs.length with
      | '>' :: r2 =>
        match ciLazyFind "</script>".data r2 with
        | some r3 => "[SCRIPT_REMOVED]".data ++ scriptScan fuel r3
        | none => c :: scriptScan fuel t
      | _ => c :: scriptScan fuel t
    else c :: scriptScan fuel t

/-- Global case-insensitive literal replacement. -/
def ciLitScan (lit repl : List Char) : Nat → List Char → List Char
  | 0, cs => cs
  | _, [] => []
  | fuel + 1, c :: t =>
    if ciPrefix lit (c :: t) then
      repl ++ ciLitScan lit repl fuel ((c :: t).drop lit.length)
    else c :: ciLitScan lit repl fuel t

/-- The three sanitisation replacements of `sanitizeText` (script tags,
`javascript:` URIs, `data:text/html` URIs). -/
def stripMalicious (text : String) : String :=
  let s1 := scriptScan (text.data.length + 1) text.data
  let s2 := ciLitScan "javascript:".data "[JAVASCRIPT_REMOVED]".data (s1.length + 1) s1
  let s3 := ciLitScan "data:text/html".data "[DATA_URL_REMOVED]".data (s2.length + 1) s2
  ⟨s3⟩

/-! ## String coercion and JSON serialisation -/

mutual

/-- JavaScript template-literal string coercion; inside an array join,
`null` and `undefined` elements become empty strings. -/
def templateStr : Value → String
  | .null => "null"
  | .undef => "undefined"
  | .bool true => "true"
  | .bool false => "false"
  | .num n => toString n
  | .str s => s
  | .arr xs => ",".intercalate (templateElems xs)
  | .obj _ => "[object Object]"

/-- String coercions of array elements in a join. -/
def templateElems : List Value → List String
  | [] => []
  | .null :: t => "" :: templateElems t
  | .undef :: t => "" :: templateElems t
  | v :: t => templateStr v :: templateElems t

end

/-- `JSON.stringify` escaping of one string character. -/
def jsonEscapeChar (c : Char) : List Char :=
  if c == '"' then ['\\', '"']
  else if c == '\\' then ['\\', '\\']
  else if c == '\n' then ['\\', 'n']
  else if c == '\r' then ['\\', 'r']
  else if c == '\t' then ['\\', 't']
  else if c.toNat == 8 then ['\\', 'b']
  else if c.toNat == 12 then ['\\', 'f']
  else if c.toNat < 32 then
    ['\\', 'u', '0', '0', Nat.digitChar (c.toNat / 16), Nat.digitChar (c.toNat % 16)]
  else [c]

def jsonQuote (s : String) : String :=
  ⟨'"' :: s.data.foldr (fun c acc => jsonEscapeChar c ++ acc) ['"']⟩

mutual

/-- `JSON.stringify`: an `undefined` object property is omitted, an
`undefined` array element serialises as `null` (a top-level `undefined`
is unreachable from the dispatcher, whose handlers never return
`undefined`). -/
def jsonStringify : Value → String
  | .null => "null"
  | .undef => "null"
  | .bool true => "true"
  | .bool false => "false"
  | .num n => toString n
  | .str s => jsonQuote s
  | .arr xs => "[" ++ ",".intercalate (jsonElems xs) ++ "]"
  | .obj fs => "\x7b" ++ ",".intercalate (jsonItems fs) ++ "\x7d"

/-- Serialised array elements. -/
def jsonElems : List Value → List String
  | [] => []
  | v :: t => jsonStringify v :: jsonElems t

/-- Serialised object properties (`undefined`-valued ones omitted). -/
def jsonItems : List (String × Value) → List String
  | [] => []
  | (_, .undef) :: t => jsonItems t
  | (k, v) :: t => (jsonQuote k ++ ":" ++ jsonStringify v) :: jsonItems t

end

/-! ## Outbound requests and the remote API oracle -/

/-- One outbound `fetch` call of `SlackClient`, carrying the
data-dependent parameters the source puts in the query string or JSON
body.  Constant parameters (`types=public_channel`,
`exclude_archived=true`, `unfurl_links=false`, `unfurl_media=false`,
`parse=full`, `link_names=false`, `include_labels=true`) are fixed by
the constructor and not repeated as fields. -/
inductive Req where
  | reactionsAdd (channel timestamp name : String)
  | chatUpdate (channel ts text : String)
  | conversationsHistory (channel : String) (limit : Int)
  | conversationsInfo (channel : String)
  | conversationsList (limit : Int) (teamId : String) (cursor : Option String)
  | conversationsReplies (channel ts : String)
  | usersInfo (user : String)
  | usersProfileGet (user : String)
  | usersList (limit : Int) (teamId : String) (cursor : Option String)
  | chatPostMessage (channel text : String) (threadTs : Option String)
      (replyBroadcast : Bool)
  deriving Repr, DecidableEq

/-- The remote Slack Web API as an oracle mapping a request to the
parsed `response.json()` value (HTTP mechanics are outside scope). -/
def SlackApi := Req → Value

/-- `if (cursor) params.append("cursor", cursor)`: the cursor parameter
is sent only when truthy. -/
def cursorParam (cursor : Option String) : Option String :=
  match cursor with
  | some c => if c.isEmpty then none else some c
  | none => none

/-! ## The eleven `SlackClient` operations

Each returns `Except String (ClientState × List Req × Value)`: a thrown
error (`Except.error`) carries the message, an `Except.ok` carries the
updated state, the list of outbound `fetch` calls performed and the
value the method returns.  An errored operation performed no fetch. -/

/-- `SlackClient.addReaction`: rate-limit gate, strip characters outside
`[a-zA-Z0-9_]` from the reaction name, POST `reactions.add`. -/
def addReaction (api : SlackApi) (channel_id timestamp reaction : String)
    (now : Nat) (st : ClientState) :
    Except String (ClientState × List Req × Value) :=
  match checkRateLimit "addReaction" now st with
  | .error m => .error m
  | .ok st1 =>
    let name : String := ⟨reaction.data.filter (fun c => isWordChar c)⟩
    let req := Req.reactionsAdd channel_id timestamp name
    .ok (st1, [req], api req)

/-- `SlackClient.getChannelHistory`: limit defaults to 10 and is capped
at 1000 by `Math.min`. -/
def getChannelHistory (api : SlackApi) (channel_id : String)
    (limit : Option Int) (now : Nat) (st : ClientState) :
    Except String (ClientState × List Req × Value) :=
  match checkRateLimit "getChannelHistory" now st with
  | .error m => .error m
  | .ok st1 =>
    let req := Req.conversationsHistory channel_id (min (limit.getD 10) 1000)
    .ok (st1, [req], api req)

/-- `SlackClient.getChannelInfo`: returns `result.channel` when `ok` is
truthy, else `null`. -/
def getChannelInfo (api : SlackApi) (channel_id : String) (now : Nat)
    (st : ClientState) : Except String (ClientState × List Req × Value) :=
  match checkRateLimit "getChannelInfo" now st with
  | .error m => .error m
  | .ok st1 =>
    let req := Req.conversationsInfo channel_id
    let result := api req
    .ok (st1, [req],
      if optTruthy (result.getField "ok") then (result.getField "channel").getD .undef
      else .null)

/-- `SlackClient.getChannels`: without a configured (truthy)
`SLACK_CHANNEL_IDS` list, one `conversations.list` call with the limit
defaulted to 100 and capped at 200; otherwise one `conversations.info`
lookup per configured id, keeping non-archived channels, assembled into
a response of the same shape with an empty next-cursor. -/
def getChannels (api : SlackApi) (env : Env) (limit : Option Int)
    (cursor : Option String) (now : Nat) (st : ClientState) :
    Except String (ClientState × List Req × Value) :=
  match checkRateLimit "getChannels" now st with
  | .error m => .error m
  | .ok st1 =>
    if (env.channelIds.getD "").isEmpty then
      let req := Req.conversationsList (min (limit.getD 100) 200) env.teamId
        (cursorParam cursor)
      .ok (st1, [req], api req)
    else
      let ids := (splitOnComma (env.channelIds.getD "")).map jsTrim
      let step := fun (acc : List Req × List Value) (channelId : String) =>
        let req := Req.conversationsInfo channelId
        let data := api req
        let keep :=
          optTruthy (data.getField "ok") && optTruthy (data.getField "channel") &&
            !(optTruthy (((data.getField "channel").getD .undef).getField "is_archived"))
        (acc.1 ++ [req],
          if keep then acc.2 ++ [(data.getField "channel").getD .undef] else acc.2)
      let (reqs, channels) := ids.foldl step ([], [])
      .ok (st1, reqs,
        .obj [("ok", .bool true), ("channels", .arr channels),
          ("response_metadata", .obj [("next_cursor", .str "")])])

/-- `SlackClient.getThreadReplies`. -/
def getThreadReplies (api : SlackApi) (channel_id thread_ts : String)
    (now : Nat) (st : ClientState) :
    Except String (ClientState × List Req × Value) :=
  match checkRateLimit "getThreadReplies" now st with
  | .error m => .error m
  | .ok st1 =>
    let req := Req.conversationsReplies channel_id thread_ts
    .ok (st1, [req], api req)

/-- `SlackClient.getUserInfo`: returns `result.user` when `ok` is
truthy, else `null`. -/
def getUserInfo (api : SlackApi) (user_id : String) (now : Nat)
    (st : ClientState) : Except String (ClientState × List Req × Value) :=
  match checkRateLimit "getUserInfo" now st with
  | .error m => .error m
  | .ok st1 =>
    let req := Req.usersInfo user_id
    let result := api req
    .ok (st1, [req],
      if optTruthy (result.getField "ok") then (result.getField "user").getD .undef
      else .null)

/-- `SlackClient.getUserProfile`. -/
def getUserProfile (api : SlackApi) (user_id : String) (now : Nat)
    (st : ClientState) : Except String (ClientState × List Req × Value) :=
  match checkRateLimit "getUserProfile" now st with
  | .error m => .error m
  | .ok st1 =>
    let req := Req.usersProfileGet user_id
    .ok (st1, [req], api req)

/-- `SlackClient.getUsers`: limit defaults to 100 and is capped at 200
by `Math.min`. -/
def getUsers (api : SlackApi) (env : Env) (limit : Option Int)
    (cursor : Option String) (now : Nat) (st : ClientState) :
    Except String (ClientState × List Req × Value) :=
  match checkRateLimit "getUsers" now st with
  | .error m => .error m
  | .ok st1 =>
    let req := Req.usersList (min (limit.getD 100) 200) env.teamId
      (cursorParam cursor)
    .ok (st1, [req], api req)

/-! ## User directory cache and mention resolution -/

/-- Lowercased form of a user name field when it is present, a string
and truthy (`user.real_name?.toLowerCase()` guarded by `if (realName)`
and friends). -/
def lowerNameField (v : Option Value) : Option String :=
  match v with
  | some (.str s) => if s.isEmpty then none else some (jsToLower s)
  | _ => none

/-- The cache-building loop body of `getCachedUsers` for one member:
skip deleted users, index by real name, display name (when different
from the real name) and username. -/
def cacheAddUser (cache : List (String × Value)) (user : Value) :
    List (String × Value) :=
  if optTruthy (user.getField "deleted") then cache
  else
    let realName := lowerNameField (user.getField "real_name")
    let displayName :=
      lowerNameField (((user.getField "profile").getD .undef).getField "display_name")
    let username := lowerNameField (user.getField "name")
    let c1 := match realName with
      | some r => entriesSet cache r user
      | none => cache
    let c2 := match displayName with
      | some d => if realName = some d then c1 else entriesSet c1 d user
      | none => c1
    match username with
    | some u => entriesSet c2 u user
    | none => c2

/-- `SlackClient.getCachedUsers`: return the cache when non-empty and
unexpired; otherwise rebuild it from one `getUsers(200)` page.  A throw
inside the rebuild (e.g. the rate limiter) is swallowed by the
`try/catch` and the previous cache is returned. -/
def getCachedUsers (api : SlackApi) (env : Env) (now : Nat) (st : ClientState) :
    List (String × Value) × ClientState × List Req :=
  if 0 < st.userCache.length ∧ now < st.cacheExpiry then (st.userCache, st, [])
  else
    match getUsers api env (some 200) none now st with
    | .error _ => (st.userCache, st, [])
    | .ok (st1, reqs, resp) =>
      if optTruthy (resp.getField "ok") && optTruthy (resp.getField "members") then
        match (resp.getField "members").getD .undef with
        | .arr members =>
          let cache := members.foldl cacheAddUser []
          (cache, { st1 with userCache := cache, cacheExpiry := now + 300000 }, reqs)
        | .str _ =>
          -- iterating a string yields characters without the looked-up
          -- fields: the cache ends up cleared and the expiry updated
          ([], { st1 with userCache := [], cacheExpiry := now + 300000 }, reqs)
        | _ =>
          -- non-iterable truthy members: `for..of` throws after the
          -- cache was cleared; the catch leaves the expiry untouched
          ([], { st1 with userCache := [] }, reqs)
      else (st.userCache, st1, reqs)

/-- One iteration of the replacement loop of `resolveMentions`: look the
lowercased trimmed name up in the cache and, when the user and its
`name` are truthy, replace the first occurrence of the matched token. -/
def resolveStep (cache : List (String × Value)) (acc m : String) : String :=
  let displayName := jsTrim (jsToLower ⟨m.data.drop 1⟩)
  match cache.lookup displayName with
  | some user =>
    match user.getField "name" with
    | some nv =>
      if nv.truthy then jsReplaceFirst acc m ("@" ++ templateStr nv) else acc
    | none => acc
  | none => acc

/-- `SlackClient.resolveMentions`: collect the mention-regex matches;
when any exist, get (possibly rebuilding) the directory cache and
replace, via `resolveStep`, each matched token whose lowercased
trimmed name maps to a cached user with a truthy `name`.
Unresolvable tokens are left unchanged. -/
def resolveMentions (api : SlackApi) (env : Env) (text : String)
    (now : Nat) (st : ClientState) : String × ClientState × List Req :=
  let ms := mentionMatches text
  if ms.isEmpty then (text, st, [])
  else
    match getCachedUsers api env now st with
    | (cache, st1, reqs) => (ms.foldl (resolveStep cache) text, st1, reqs)

/-- `SlackClient.sanitizeText`: URL validation on the original text (a
hard fail aborting the operation), markdown conversion, malicious
content stripping, mention resolution. -/
def sanitizeText (api : SlackApi) (env : Env) (text : String) (now : Nat)
    (st : ClientState) : Except String (String × ClientState × List Req) :=
  match validateUrls (domainsOf env) text with
  | .error m => .error m
  | .ok _ =>
    let formatted := formatText text
    let sanitized := stripMalicious formatted
    .ok (resolveMentions api env sanitized now st)

/-- `SlackClient.postMessage`: rate-limit gate, sanitisation pipeline,
POST `chat.postMessage`. -/
def postMessage (api : SlackApi) (env : Env) (channel_id text : String)
    (now : Nat) (st : ClientState) :
    Except String (ClientState × List Req × Value) :=
  match checkRateLimit "postMessage" now st with
  | .error m => .error m
  | .ok st1 =>
    match sanitizeText api env text now st1 with
    | .error m => .error m
    | .ok (t, st2, reqs) =>
      let req := Req.chatPostMessage channel_id t none false
      .ok (st2, reqs ++ [req], api req)

/-- `SlackClient.editMessage`: rate-limit gate, sanitisation pipeline,
POST `chat.update`. -/
def editMessage (api : SlackApi) (env : Env) (channel_id timestamp text : String)
    (now : Nat) (st : ClientState) :
    Except String (ClientState × List Req × Value) :=
  match checkRateLimit "editMessage" now st with
  | .error m => .error m
  | .ok st1 =>
    match sanitizeText api env text now st1 with
    | .error m => .error m
    | .ok (t, st2, reqs) =>
      let req := Req.chatUpdate channel_id timestamp t
      .ok (st2, reqs ++ [req], api req)

/-- `SlackClient.postReply`: rate-limit gate, sanitisation pipeline,
POST `chat.postMessage` with `thread_ts` (and `reply_broadcast` exactly
when `broadcast` is truthy). -/
def postReply (api : SlackApi) (env : Env) (channel_id thread_ts text : String)
    (broadcast : Bool) (now : Nat) (st : ClientState) :
    Except String (ClientState × List Req × Value) :=
  match checkRateLimit "postReply" now st with
  | .error m => .error m
  | .ok st1 =>
    match sanitizeText api env text now st1 with
    | .error m => .error m
    | .ok (t, st2, reqs) =>
      let req := Req.chatPostMessage channel_id t (some thread_ts) broadcast
      .ok (st2, reqs ++ [req], api req)

/-! ## The MCP dispatcher (`SlackMcpServer` of `src/server/mcp.ts`)

A handler takes the API oracle, the environment, the external
`slackifyMarkdown` library (an opaque `String → String` collaborator),
the current time, the client state and the argument object, and returns
the updated state, the outbound requests performed and the handler's
result value (or propagates a thrown client error). -/

/-- The type of a registered tool handler. -/
def Handler :=
  SlackApi → Env → (String → String) → Nat → ClientState → Value →
    Except String (ClientState × List Req × Value)

/-- A string argument (the tool schemas type these fields as strings). -/
def argStr (args : Value) (k : String) : String :=
  match args.getField k with
  | some (.str s) => s
  | _ => ""

/-- An optional numeric argument (`limit`). -/
def argNum (args : Value) (k : String) : Option Int :=
  match args.getField k with
  | some (.num n) => some n
  | _ => none

/-- An optional string argument (`cursor`). -/
def argStrOpt (args : Value) (k : String) : Option String :=
  match args.getField k with
  | some (.str s) => some s
  | _ => none

/-- `SlackMcpServer.handleAddReaction`. -/
def handleAddReaction : Handler := fun api _env _sl now st args =>
  if !(optTruthy (args.getField "channel_id")) ||
      !(optTruthy (args.getField "timestamp")) ||
      !(optTruthy (args.getField "reaction")) then
    .ok (st, [], .str "Missing required arguments: channel_id, timestamp, and reaction")
  else
    addReaction api (argStr args "channel_id") (argStr args "timestamp")
      (argStr args "reaction") now st

/-- `SlackMcpServer.handleEditMessage`: converts the text through
`slackifyMarkdown` before calling the client. -/
def handleEditMessage : Handler := fun api env sl now st args =>
  if !(optTruthy (args.getField "channel_id")) ||
      !(optTruthy (args.getField "timestamp")) ||
      !(optTruthy (args.getField "text")) then
    .ok (st, [], .str "Missing required arguments: channel_id, timestamp, and text")
  else
    editMessage api env (argStr args "channel_id") (argStr args "timestamp")
      (sl (argStr args "text")) now st

/-- `SlackMcpServer.handleGetChannelHistory`. -/
def handleGetChannelHistory : Handler := fun api _env _sl now st args =>
  if !(optTruthy (args.getField "channel_id")) then
    .ok (st, [], .str "Missing required argument: channel_id")
  else
    getChannelHistory api (argStr args "channel_id") (argNum args "limit") now st

/-- `SlackMcpServer.handleGetThreadReplies`. -/
def handleGetThreadReplies : Handler := fun api _env _sl now st args =>
  if !(optTruthy (args.getField "channel_id")) ||
      !(optTruthy (args.getField "thread_ts")) then
    .ok (st, [], .str "Missing required arguments: channel_id and thread_ts")
  else
    getThreadReplies api (argStr args "channel_id") (argStr args "thread_ts") now st

/-- `SlackMcpServer.handleGetUserProfile`. -/
def handleGetUserProfile : Handler := fun api _env _sl now st args =>
  if !(optTruthy (args.getField "user_id")) then
    .ok (st, [], .str "Missing required argument: user_id")
  else
    getUserProfile api (argStr args "user_id") now st

/-- The member enrichment of `handleGetUsers`:
`{...user, mention: @user.name}` (spread of a non-object member, never
produced by the users API, is modelled as the mention-only object). -/
def addMention (user : Value) : Value :=
  match user with
  | .obj fs =>
    .obj (entriesSet fs "mention"
      (.str ("@" ++ templateStr (((Value.obj fs).getField "name").getD .undef))))
  | v => .obj [("mention", .str ("@" ++ templateStr ((v.getField "name").getD .undef)))]

/-- The response rewrite of `handleGetUsers`: when `response.members` is
truthy, map the members through `addMention` (a truthy non-array value
of `members` would throw at runtime and is returned unchanged here). -/
def mapMembers (resp : Value) : Value :=
  match resp.getField "members" with
  | some (.arr ms) =>
    match resp with
    | .obj fs => .obj (entriesSet fs "members" (.arr (ms.map addMention)))
    | v => v
  | _ => resp

/-- `SlackMcpServer.handleGetUsers`: no required arguments; extends each
member of the response with a `mention` field. -/
def handleGetUsers : Handler := fun api env _sl now st args =>
  match getUsers api env (argNum args "limit") (argStrOpt args "cursor") now st with
  | .error m => .error m
  | .ok (st1, reqs, resp) =>
    if optTruthy (resp.getField "members") then
      .ok (st1, reqs, mapMembers resp)
    else
      .ok (st1, reqs, resp)

/-- `SlackMcpServer.handleListChannels`: no required arguments. -/
def handleListChannels : Handler := fun api env _sl now st args =>
  getChannels api env (argNum args "limit") (argStrOpt args "cursor") now st

/-- `SlackMcpServer.handlePostMessage`: converts the text through
`slackifyMarkdown` before calling the client. -/
def handlePostMessage : Handler := fun api env sl now st args =>
  if !(optTruthy (args.getField "channel_id")) ||
      !(optTruthy (args.getField "text")) then
    .ok (st, [], .str "Missing required arguments: channel_id and text")
  else
    postMessage api env (argStr args "channel_id") (sl (argStr args "text")) now st

/-- `SlackMcpServer.handleReplyToThread`: converts the text through
`slackifyMarkdown`; the broadcast flag is passed through (truthiness
decides `reply_broadcast`, default false). -/
def handleReplyToThread : Handler := fun api env sl now st args =>
  if !(optTruthy (args.getField "channel_id")) ||
      !(optTruthy (args.getField "thread_ts")) ||
      !(optTruthy (args.getField "text")) then
    .ok (st, [], .str "Missing required arguments: channel_id, thread_ts, and text")
  else
    postReply api env (argStr args "channel_id") (argStr args "thread_ts")
      (sl (argStr args "text")) (optTruthy (args.getField "broadcast")) now st

/-- The handler registry built by `setupToolHandlers` (a fixed `Map`
from tool name to bound handler). -/
def lookupHandler (name : String) : Option Handler :=
  if name == "add_reaction" then some handleAddReaction
  else if name == "edit_message" then some handleEditMessage
  else if name == "get_channel_history" then some handleGetChannelHistory
  else if name == "get_thread_replies" then some handleGetThreadReplies
  else if name == "get_user_profile" then some handleGetUserProfile
  else if name == "get_users" then some handleGetUsers
  else if name == "list_channels" then some handleListChannels
  else if name == "post_message" then some handlePostMessage
  else if name == "reply_to_thread" then some handleReplyToThread
  else none

/-- `SlackClient.response`: the uniform content envelope
`(content: ((type: text, text: ...)))`; `stringify` serialises the
payload through `JSON.stringify`, otherwise it is passed through. -/
def clientResponse (v : Value) (stringify : Bool) : Value :=
  .obj [("content", .arr [.obj [("type", .str "text"),
    ("text", if stringify then .str (jsonStringify v) else v)]])]

/-- `typeof result === 'string'`. -/
def isStringValue : Value → Bool
  | .str _ => true
  | _ => false

/-- Whether a value has the content-envelope shape produced by
`SlackClient.response`. -/
def isEnvelope : Value → Bool
  | .obj [("content", .arr [.obj [("type", .str "text"), ("text", _)]])] => true
  | _ => false

/-- `SlackMcpServer.handleRequest`: a missing argument map and an
unknown tool name return bare strings; a handler result is wrapped in
the content envelope, stringified exactly when it is not a string. -/
def handleRequest (api : SlackApi) (env : Env) (slackify : String → String)
    (now : Nat) (st : ClientState) (name : String) (args : Option Value) :
    Except String (ClientState × List Req × Value) :=
  match args with
  | none => .ok (st, [], .str "No arguments provided")
  | some a =>
    match lookupHandler name with
    | none => .ok (st, [], .str ("Unknown tool: " ++ name))
    | some h =>
      (h api env slackify now st a).map (fun r =>
        (r.1, r.2.1, clientResponse r.2.2 (!(isStringValue r.2.2))))

/-! ## Helper lemmas on the rate limiter -/

theorem checkRateLimit_cap (e : String) (t : Nat) (st : ClientState)
    (h : 60 ≤ rlGet st.rateLimiter (rlKey e t)) :
    checkRateLimit e t st = .error ("Rate limit exceeded for " ++ e) := by
  simp only [checkRateLimit]
  rw [if_pos h]

/-- The state a successful `checkRateLimit` leaves: count incremented at
the window key, lexicographically smaller keys pruned. -/
def rlBump (st : ClientState) (key : String) : ClientState :=
  { st with
    rateLimiter := rlPrune (rlSet st.rateLimiter key (rlGet st.rateLimiter key + 1)) key }

theorem checkRateLimit_ok (e : String) (t : Nat) (st : ClientState)
    (h : rlGet st.rateLimiter (rlKey e t) < 60) :
    checkRateLimit e t st = .ok (rlBump st (rlKey e t)) := by
  simp only [checkRateLimit, rlBump]
  rw [if_neg (by omega)]

theorem mem_of_checkRateLimit_ok {e : String} {t : Nat} {st st' : ClientState}
    (h : checkRateLimit e t st = .ok st') :
    ∀ p ∈ st'.rateLimiter, ¬ (p.1 < rlKey e t) := by
  intro p hp
  by_cases hc : rlGet st.rateLimiter (rlKey e t) < 60
  · rw [checkRateLimit_ok e t st hc] at h
    cases h
    simp only [rlBump, rlPrune, List.mem_filter] at hp
    intro hlt
    rw [← jsStrLt_iff_string p.1 (rlKey e t)] at hlt
    simp [hlt] at hp
  · rw [checkRateLimit_cap e t st (by omega)] at h
    cases h

theorem lookup_of_checkRateLimit_ok {e : String} {t : Nat} {st st' : ClientState}
    (h : checkRateLimit e t st = .ok st') (k : String) (hk : k < rlKey e t) :
    st'.rateLimiter.lookup k = none := by
  rw [List.lookup_eq_none_iff]
  intro p hp
  have hnp := mem_of_checkRateLimit_ok h p hp
  simp only [bne_iff_ne, ne_eq]
  intro he
  exact hnp (he ▸ hk)

/-- `n` consecutive rate-limit checks of the same endpoint at the same
time, stopping at the first thrown error (the per-call gate of `n`
consecutive operations within one window). -/
def repeatCheck (e : String) (t : Nat) : Nat → ClientState → Except String ClientState
  | 0, st => .ok st
  | n + 1, st =>
    match checkRateLimit e t st with
    | .error m => .error m
    | .ok st1 => repeatCheck e t n st1

theorem checkRateLimit_single_step (e : String) (t : Nat)
    (u : List (String × Value)) (c m : Nat) (hm : m < 60) :
    checkRateLimit e t ⟨[(rlKey e t, m)], u, c⟩ = .ok ⟨[(rlKey e t, m + 1)], u, c⟩ := by
  have hget : rlGet [(rlKey e t, m)] (rlKey e t) = m := by
    simp [rlGet, List.lookup]
  rw [checkRateLimit_ok e t _ (by simpa [hget] using hm)]
  simp [rlBump, hget, rlSet, rlPrune, jsStrLt_irrefl]

theorem checkRateLimit_empty (e : String) (t : Nat)
    (u : List (String × Value)) (c : Nat) :
    checkRateLimit e t ⟨[], u, c⟩ = .ok ⟨[(rlKey e t, 1)], u, c⟩ := by
  have hget : rlGet ([] : List (String × Nat)) (rlKey e t) = 0 := by
    simp [rlGet, List.lookup]
  rw [checkRateLimit_ok e t _ (by simp [hget])]
  simp [rlBump, hget, rlSet, rlPrune, jsStrLt_irrefl]

theorem repeatCheck_run (e : String) (t : Nat) (u : List (String × Value))
    (c : Nat) :
    ∀ n m, m + n ≤ 60 →
      repeatCheck e t n ⟨[(rlKey e t, m)], u, c⟩ = .ok ⟨[(rlKey e t, m + n)], u, c⟩
  | 0, m, _ => by simp [repeatCheck]
  | n + 1, m, h => by
    have hrest := repeatCheck_run e t u c n (m + 1) (by omega)
    have harith : m + 1 + n = m + (n + 1) := by omega
    rw [harith] at hrest
    rw [repeatCheck, checkRateLimit_single_step e t u c m (by omega)]
    exact hrest

theorem repeatCheck_sixty (e : String) (t : Nat) :
    repeatCheck e t 60 initialState = .ok ⟨[(rlKey e t, 60)], [], 0⟩ := by
  rw [repeatCheck, initialState, checkRateLimit_empty e t [] 0]
  exact repeatCheck_run e t [] 0 59 1 (by omega)

theorem checkRateLimit_next_window (e : String) (t : Nat)
    (u : List (String × Value)) (c : Nat) :
    ∃ st', checkRateLimit e (t + 60000) ⟨[(rlKey e t, 60)], u, c⟩ = .ok st' := by
  have hne : rlKey e (t + 60000) ≠ rlKey e t := rlKey_next_window_ne e t
  refine ⟨_, checkRateLimit_ok e (t + 60000) _ ?_⟩
  simp [rlGet, List.lookup, beq_eq_false_iff_ne.mpr hne]

/-! ## Claim theorems: rate limiting (C1, C2, C9) -/

/-- C1.  For every Gateway endpoint, once 60 calls are counted at the
endpoint's current window key, the operation throws
`Rate limit exceeded for <endpoint>` (an `Except.error`, which by
construction of the operation types carries no outbound request — the
network call is never reached).  Moreover, from a fresh client, 60
checks of an endpoint within one window succeed and leave the window
count at 60, the 61st check in the same window throws the rate-limit
error, and a check of the same endpoint in the next window (`t + 60000`)
succeeds again; at the operation level, a `getUserProfile` call in the
next window after a saturated window completes and performs its
outbound request. -/
theorem C1_per_endpoint_rate_limit :
    (∀ api ch ts r t st, rlGet st.rateLimiter (rlKey "addReaction" t) = 60 →
      addReaction api ch ts r t st = .error "Rate limit exceeded for addReaction") ∧
    (∀ api env ch ts x t st, rlGet st.rateLimiter (rlKey "editMessage" t) = 60 →
      editMessage api env ch ts x t st = .error "Rate limit exceeded for editMessage") ∧
    (∀ api ch l t st, rlGet st.rateLimiter (rlKey "getChannelHistory" t) = 60 →
      getChannelHistory api ch l t st = .error "Rate limit exceeded for getChannelHistory") ∧
    (∀ api ch t st, rlGet st.rateLimiter (rlKey "getChannelInfo" t) = 60 →
      getChannelInfo api ch t st = .error "Rate limit exceeded for getChannelInfo") ∧
    (∀ api env l cur t st, rlGet st.rateLimiter (rlKey "getChannels" t) = 60 →
      getChannels api env l cur t st = .error "Rate limit exceeded for getChannels") ∧
    (∀ api ch ts t st, rlGet st.rateLimiter (rlKey "getThreadReplies" t) = 60 →
      getThreadReplies api ch ts t st = .error "Rate limit exceeded for getThreadReplies") ∧
    (∀ api uid t st, rlGet st.rateLimiter (rlKey "getUserInfo" t) = 60 →
      getUserInfo api uid t st = .error "Rate limit exceeded for getUserInfo") ∧
    (∀ api uid t st, rlGet st.rateLimiter (rlKey "getUserProfile" t) = 60 →
      getUserProfile api uid t st = .error "Rate limit exceeded for getUserProfile") ∧
    (∀ api env l cur t st, rlGet st.rateLimiter (rlKey "getUsers" t) = 60 →
      getUsers api env l cur t st = .error "Rate limit exceeded for getUsers") ∧
    (∀ api env ch x t st, rlGet st.rateLimiter (rlKey "postMessage" t) = 60 →
      postMessage api env ch x t st = .error "Rate limit exceeded for postMessage") ∧
    (∀ api env ch ts x b t st, rlGet st.rateLimiter (rlKey "postReply" t) = 60 →
      postReply api env ch ts x b t st = .error "Rate limit exceeded for postReply") ∧
    (∀ e t, repeatCheck e t 60 initialState = .ok ⟨[(rlKey e t, 60)], [], 0⟩ ∧
      checkRateLimit e t ⟨[(rlKey e t, 60)], [], 0⟩ =
        .error ("Rate limit exceeded for " ++ e) ∧
      ∃ st', checkRateLimit e (t + 60000) ⟨[(rlKey e t, 60)], [], 0⟩ = .ok st') ∧
    (∀ api uid t, ∃ st', getUserProfile api uid (t + 60000)
        ⟨[(rlKey "getUserProfile" t, 60)], [], 0⟩ =
      .ok (st', [Req.usersProfileGet uid], api (Req.usersProfileGet uid))) := by
  refine ⟨?_, ?_, ?_, ?_, ?_, ?_, ?_, ?_, ?_, ?_, ?_, ?_, ?_⟩
  · intro api ch ts r t st h
    simp only [addReaction]
    rw [checkRateLimit_cap "addReaction" t st (by omega)]
    rfl
  · intro api env ch ts x t st h
    simp only [editMessage]
    rw [checkRateLimit_cap "editMessage" t st (by omega)]
    rfl
  · intro api ch l t st h
    simp only [getChannelHistory]
    rw [checkRateLimit_cap "getChannelHistory" t st (by omega)]
    rfl
  · intro api ch t st h
    simp only [getChannelInfo]
    rw [checkRateLimit_cap "getChannelInfo" t st (by omega)]
    rfl
  · intro api env l cur t st h
    simp only [getChannels]
    rw [checkRateLimit_cap "getChannels" t st (by omega)]
    rfl
  · intro api ch ts t st h
    simp only [getThreadReplies]
    rw [checkRateLimit_cap "getThreadReplies" t st (by omega)]
    rfl
  · intro api uid t st h
    simp only [getUserInfo]
    rw [checkRateLimit_cap "getUserInfo" t st (by omega)]
    rfl
  · intro api uid t st h
    simp only [getUserProfile]
    rw [checkRateLimit_cap "getUserProfile" t st (by omega)]
    rfl
  · intro api env l cur t st h
    simp only [getUsers]
    rw [checkRateLimit_cap "getUsers" t st (by omega)]
    rfl
  · intro api env ch x t st h
    simp only [postMessage]
    rw [checkRateLimit_cap "postMessage" t st (by omega)]
    rfl
  · intro api env ch ts x b t st h
    simp only [postReply]
    rw [checkRateLimit_cap "postReply" t st (by omega)]
    rfl
  · intro e t
    refine ⟨repeatCheck_sixty e t, ?_, checkRateLimit_next_window e t [] 0⟩
    apply checkRateLimit_cap
    simp [rlGet, List.lookup]
  · intro api uid t
    obtain ⟨st', hok⟩ := checkRateLimit_next_window "getUserProfile" t [] 0
    exact ⟨st', by simp only [getUserProfile, hok]⟩

/-- C1 witness: a concrete rate-limited call fails with the endpoint's
error and a concrete fresh-state scenario goes through. -/
theorem C1_witness :
    addReaction (fun _ => Value.null) "C1" "1.2" "x" 0
        ⟨[("addReaction_0", 60)], [], 0⟩ =
      .error "Rate limit exceeded for addReaction" :=
  C1_per_endpoint_rate_limit.1 (fun _ => Value.null) "C1" "1.2" "x" 0
    ⟨[("addReaction_0", 60)], [], 0⟩ (by decide)

/-- C2 counterexample: the pruning loop compares composite keys as
strings, so after a completed check of endpoint `a` at `now = 60000`
(window index 1) the key `z_0` of endpoint `z` for the strictly older
window 0 is still in the tracking map (`"z_0" < "a_1"` is false in
string order).  This falsifies the claimed invariant that no key of an
older window survives any check. -/
theorem C2_counterexample :
    (checkRateLimit "z" 0 initialState).bind (checkRateLimit "a" 60000) =
        .ok ⟨[(rlKey "z" 0, 1), (rlKey "a" 60000, 1)], [], 0⟩ ∧
    rlKey "z" 0 = "z_0" ∧ rlKey "a" 60000 = "a_1" ∧
    (0 : Nat) < 60000 / 60000 := by
  refine ⟨by rfl, rfl, rfl, by decide⟩

/-- C2 amended: after a completed check for endpoint `e` at time `t`, no
entry whose key is lexicographically smaller (as a string) than the
caller's composite key remains in the tracking map; keys comparing
lexicographically greater — including other endpoints' older-window
keys — may survive. -/
theorem C2_amended_lex_prune (e : String) (t : Nat) (st st' : ClientState)
    (h : checkRateLimit e t st = .ok st') :
    ∀ p ∈ st'.rateLimiter, ¬ (p.1 < rlKey e t) :=
  mem_of_checkRateLimit_ok h

/-- C2 amended witness at a concrete check. -/
theorem C2_witness :
    ¬ (("postMessage_0", 1).1 < rlKey "postMessage" 0) :=
  C2_amended_lex_prune "postMessage" 0 initialState
    ⟨[("postMessage_0", 1)], [], 0⟩ (by rfl) ("postMessage_0", 1) (by simp)

/-- C9.  The prune step deletes every map key lexicographically smaller
(as a string) than the caller's composite key; consequently, a check of
`postMessage` deletes `addReaction`'s counter of the same window
(`"addReaction_0" < "postMessage_0"`), resetting that endpoint's
in-window count to zero. -/
theorem C9_lex_prune_deletes :
    (∀ e t st st', checkRateLimit e t st = .ok st' →
      ∀ k, k < rlKey e t → st'.rateLimiter.lookup k = none) ∧
    checkRateLimit "addReaction" 0 initialState =
      .ok ⟨[(rlKey "addReaction" 0, 1)], [], 0⟩ ∧
    checkRateLimit "postMessage" 0 ⟨[(rlKey "addReaction" 0, 1)], [], 0⟩ =
      .ok ⟨[(rlKey "postMessage" 0, 1)], [], 0⟩ ∧
    rlGet [(rlKey "postMessage" 0, 1)] (rlKey "addReaction" 0) = 0 := by
  refine ⟨?_, by rfl, by rfl, by rfl⟩
  intro e t st st' h k hk
  exact lookup_of_checkRateLimit_ok h k hk

/-- C9 witness: the deletion conclusion at a concrete check. -/
theorem C9_witness :
    (⟨[("postMessage_0", 1)], [], 0⟩ : ClientState).rateLimiter.lookup
      "addReaction_0" = none :=
  C9_lex_prune_deletes.1 "postMessage" 0 ⟨[("addReaction_0", 1)], [], 0⟩
    ⟨[("postMessage_0", 1)], [], 0⟩ (by rfl) "addReaction_0"
    ((jsStrLt_iff_string "addReaction_0" (rlKey "postMessage" 0)).mp (by rfl))

/-! ## Concrete fixtures for the remaining claims -/

/-- A remote API oracle whose every response is `null` (the branches
under test never consume the response). -/
def trivApi : SlackApi := fun _ => Value.null

/-- A default environment: team id set, no channel allowlist, no custom
blocked-domain list. -/
def env0 : Env := ⟨"T1", none, none⟩

/-- A client state whose directory cache maps the lowercased display
name `jane doe` to a user whose canonical handle is `jane.d`, fresh
until timestamp 1000. -/
def janeState : ClientState :=
  ⟨[], [("jane doe", Value.obj [("name", Value.str "jane.d")])], 1000⟩

/-- When none of the matched tokens resolves through the cache, the
replacement fold leaves the accumulator untouched. -/
theorem foldl_resolveStep_id (cache : List (String × Value)) :
    ∀ (ms : List String) (acc : String), (∀ m ∈ ms,
        cache.lookup (jsTrim (jsToLower ⟨m.data.drop 1⟩)) = none) →
      ms.foldl (resolveStep cache) acc = acc := by
  intro ms
  induction ms with
  | nil => intro acc _; rfl
  | cons m ms ih =>
    intro acc h
    have hm : cache.lookup (jsTrim (jsToLower ⟨m.data.drop 1⟩)) = none :=
      h m (List.mem_cons_self m ms)
    have hstep : resolveStep cache acc m = acc := by
      simp only [resolveStep, hm]
    rw [List.foldl_cons, hstep]
    exact ih acc (fun x hx => h x (List.mem_cons_of_mem m hx))

/-! ## Claim theorems: mention resolution (C3) -/

/-- C3 counterexample: the mention regex
`/@([A-Za-z][A-Za-z\s]*[A-Za-z]|[A-Za-z])/g` runs greedily through
spaces, so in `cc @Jane Doe for review` the single matched token is
`@Jane Doe for review`; its lowercased name `jane doe for review` is
not the cache key `jane doe`, the token is left verbatim, and the text
does not resolve to the claimed `cc @jane.d for review`. -/
theorem C3_counterexample :
    mentionMatches "cc @Jane Doe for review" = ["@Jane Doe for review"] ∧
    (resolveMentions trivApi env0 "cc @Jane Doe for review" 0 janeState).1 =
      "cc @Jane Doe for review" ∧
    "cc @Jane Doe for review" ≠ "cc @jane.d for review" := by
  refine ⟨by rfl, by rfl, by decide⟩

/-- C3 amended: a mention token extends greedily through letters and
whitespace up to the last letter.  A token that runs to the end of the
text (`@Jane Doe for review`) therefore does not hit the cache and is
left verbatim; when a non-letter stops the token (`@Jane Doe,`), the
token resolves through the cache to `@` plus the canonical handle; a
token whose name is absent from the cache is left verbatim — and in
general, a text none of whose matched tokens resolves through the
directory cache is returned unchanged. -/
theorem C3_amended_greedy_mentions :
    (resolveMentions trivApi env0 "cc @Jane Doe for review" 0 janeState).1 =
      "cc @Jane Doe for review" ∧
    (resolveMentions trivApi env0 "cc @Jane Doe, for review" 0 janeState).1 =
      "cc @jane.d, for review" ∧
    (resolveMentions trivApi env0 "cc @Random Person, hello" 0 janeState).1 =
      "cc @Random Person, hello" ∧
    (∀ api env text now st,
      (∀ m ∈ mentionMatches text,
        (getCachedUsers api env now st).1.lookup
          (jsTrim (jsToLower ⟨m.data.drop 1⟩)) = none) →
      (resolveMentions api env text now st).1 = text) := by
  refine ⟨by rfl, by rfl, by rfl, ?_⟩
  intro api env text now st h
  rcases hg : getCachedUsers api env now st with ⟨cache, st1, reqs⟩
  simp only [resolveMentions, hg]
  by_cases he : (mentionMatches text).isEmpty
  · rw [if_pos he]
  · rw [if_neg he]
    refine foldl_resolveStep_id cache (mentionMatches text) text ?_
    intro m hm
    have hx := h m hm
    rwa [hg] at hx

/-- C3 witness: a concrete text whose only mention token misses the
cache is returned verbatim, via the universal clause. -/
theorem C3_witness :
    (resolveMentions trivApi env0 "hi @Bob Unknown here" 0 janeState).1 =
      "hi @Bob Unknown here" := by
  refine C3_amended_greedy_mentions.2.2.2 trivApi env0
    "hi @Bob Unknown here" 0 janeState ?_
  intro m hm
  have hlist : mentionMatches "hi @Bob Unknown here" = ["@Bob Unknown here"] := by
    rfl
  rw [hlist] at hm
  have hmeq := List.mem_singleton.mp hm
  subst hmeq
  rfl

/-! ## Claim theorems: markdown converter stability (C4) -/

/-- C4 (code bug, evaluation at the failing input): the emphasis rules
re-process already-converted output.  On `***x***` the `**`-rule output
is immediately rewritten by the single-`*` italic rule, producing
`__x__`; a second application of the converter treats `__x__` as
double-underscore bold and rewrites it to `_x_`.  Hence
`formatText (formatText s) ≠ formatText s` at `s = "***x***"`, refuting
round-trip stability. -/
theorem C4_not_stable_eval :
    formatText "***x***" = "__x__" ∧
    formatText "__x__" = "_x_" ∧
    formatText (formatText "***x***") ≠ formatText "***x***" := by
  refine ⟨by rfl, by rfl, by decide⟩

/-! ## Claim theorems: URL validation (C5) -/

/-- A URL the validator rejects: it parses and its hostname contains a
blocked substring, or it carries an explicit port outside
80/443/8080/8443. -/
def badUrl (domains : List String) (u : String) : Prop :=
  ∃ p, parseUrl u = some p ∧
    (domains.any (fun sus => containsSub p.hostname sus) = true ∨
      ∃ n, p.port = some n ∧ n ≠ 80 ∧ n ≠ 443 ∧ n ≠ 8080 ∧ n ≠ 8443)

theorem urlCheck_error_of_bad (domains : List String) (u : String)
    (h : badUrl domains u) : ∃ msg, urlCheck domains u = .error msg := by
  obtain ⟨p, hp, hbad⟩ := h
  rcases hbad with hdom | ⟨n, hn, h80, h443, h8080, h8443⟩
  · refine ⟨"Suspicious domain detected: " ++ p.hostname, ?_⟩
    simp only [urlCheck, hp]
    rw [if_pos hdom]
  · by_cases hdom : (domains.any fun sus => containsSub p.hostname sus) = true
    · refine ⟨"Suspicious domain detected: " ++ p.hostname, ?_⟩
      simp only [urlCheck, hp]
      rw [if_pos hdom]
    · refine ⟨"Non-standard port detected: " ++ Nat.repr n, ?_⟩
      simp only [urlCheck, hp, hn]
      rw [if_neg hdom, if_neg (by simp [h80, h443, h8080, h8443])]

theorem urlsCheckLoop_error_of_mem (domains : List String) :
    ∀ (urls : List String) (u : String), u ∈ urls →
      (∃ m, urlCheck domains u = .error m) →
      ∃ m, urlsCheckLoop domains urls = .error m
  | [], u, hu, _ => absurd hu (List.not_mem_nil u)
  | a :: t, u, hu, he => by
    cases hca : urlCheck domains a with
    | error m => exact ⟨m, by simp only [urlsCheckLoop, hca]⟩
    | ok _ =>
      rcases List.mem_cons.mp hu with rfl | hmem
      · obtain ⟨m, hm⟩ := he
        rw [hca] at hm
        cases hm
      · obtain ⟨m, hm⟩ := urlsCheckLoop_error_of_mem domains t u hmem he
        exact ⟨m, by simp only [urlsCheckLoop, hca, hm]⟩

theorem validateUrls_error_of_bad (domains : List String) (text : String)
    (h : ∃ u ∈ extractUrls text, badUrl domains u) :
    ∃ m, validateUrls domains text = .error m := by
  obtain ⟨u, hu, hbad⟩ := h
  exact urlsCheckLoop_error_of_mem domains (extractUrls text) u hu
    (urlCheck_error_of_bad domains u hbad)

theorem sanitizeText_error_of_bad (api : SlackApi) (env : Env) (text : String)
    (now : Nat) (st : ClientState)
    (h : ∃ u ∈ extractUrls text, badUrl (domainsOf env) u) :
    ∃ m, sanitizeText api env text now st = .error m := by
  obtain ⟨m, hm⟩ := validateUrls_error_of_bad (domainsOf env) text h
  exact ⟨m, by simp only [sanitizeText, hm]⟩

/-- C5.  For each text-bearing operation, a text containing a URL with a
blocked hostname substring or an explicit non-allowed port makes the
whole operation throw (`Except.error`, so no outbound request list is
produced — nothing is sent); concretely, `http://bit.ly/x` amid valid
text and an explicit port 9999 are rejected, while a text whose only
URL is `https://example.com:443/path` passes URL validation (the `URL`
class normalises the default port away). -/
theorem C5_url_security_gate :
    (∀ api env ch text t st, (∃ u ∈ extractUrls text, badUrl (domainsOf env) u) →
      ∃ msg, postMessage api env ch text t st = .error msg) ∧
    (∀ api env ch ts text t st, (∃ u ∈ extractUrls text, badUrl (domainsOf env) u) →
      ∃ msg, editMessage api env ch ts text t st = .error msg) ∧
    (∀ api env ch ts text b t st, (∃ u ∈ extractUrls text, badUrl (domainsOf env) u) →
      ∃ msg, postReply api env ch ts text b t st = .error msg) ∧
    postMessage trivApi env0 "C1" "all good but http://bit.ly/x inside" 0 initialState =
      .error "Suspicious domain detected: bit.ly" ∧
    postMessage trivApi env0 "C1" "see http://example.com:9999 now" 0 initialState =
      .error "Non-standard port detected: 9999" ∧
    validateUrls suspiciousDomains "https://example.com:443/path" = .ok () := by
  refine ⟨?_, ?_, ?_, by rfl, by rfl, by rfl⟩
  · intro api env ch text t st h
    cases hc : checkRateLimit "postMessage" t st with
    | error m => exact ⟨m, by simp only [postMessage, hc]⟩
    | ok st1 =>
      obtain ⟨m, hm⟩ := sanitizeText_error_of_bad api env text t st1 h
      exact ⟨m, by simp only [postMessage, hc, hm]⟩
  · intro api env ch ts text t st h
    cases hc : checkRateLimit "editMessage" t st with
    | error m => exact ⟨m, by simp only [editMessage, hc]⟩
    | ok st1 =>
      obtain ⟨m, hm⟩ := sanitizeText_error_of_bad api env text t st1 h
      exact ⟨m, by simp only [editMessage, hc, hm]⟩
  · intro api env ch ts text b t st h
    cases hc : checkRateLimit "postReply" t st with
    | error m => exact ⟨m, by simp only [postReply, hc]⟩
    | ok st1 =>
      obtain ⟨m, hm⟩ := sanitizeText_error_of_bad api env text t st1 h
      exact ⟨m, by simp only [postReply, hc, hm]⟩

/-- C5 witness: the universal gate applied at a concrete blocked URL. -/
theorem C5_witness :
    ∃ msg, postReply trivApi env0 "C1" "1.2" "http://bit.ly/x" false 0
      initialState = .error msg :=
  C5_url_security_gate.2.2.1 trivApi env0 "C1" "1.2" "http://bit.ly/x" false 0
    initialState
    ⟨"http://bit.ly/x", by decide, ⟨"http", "bit.ly", none⟩, by rfl, Or.inl (by rfl)⟩

/-! ## Claim theorems: dispatcher argument validation (C6) -/

/-- C6 counterexample: calling `post_message` with an argument map that
contains only `channel_id` returns the fixed error message naming BOTH
required fields — including the supplied `channel_id` — not exactly the
missing field `text`.  (The request list is empty: no outbound call.) -/
theorem C6_counterexample :
    handlePostMessage trivApi env0 id 0 initialState
        (Value.obj [("channel_id", Value.str "C1")]) =
      .ok (initialState, [], .str "Missing required arguments: channel_id and text") ∧
    containsSub "Missing required arguments: channel_id and text" "channel_id" = true := by
  refine ⟨by rfl, by rfl⟩

/-- C6 amended: with any required field of `post_message` missing or
falsy, the handler returns the fixed error string naming the full
required-field set (`channel_id and text`) with an empty request list
(zero outbound calls); an unregistered tool name makes the dispatcher
return `Unknown tool: <name>` without invoking any handler or Gateway
operation. -/
theorem C6_amended_missing_fields :
    (∀ api env sl now st args,
      (optTruthy (args.getField "channel_id") = false ∨
        optTruthy (args.getField "text") = false) →
      handlePostMessage api env sl now st args =
        .ok (st, [], .str "Missing required arguments: channel_id and text")) ∧
    (∀ api env sl now st name args, lookupHandler name = none →
      handleRequest api env sl now st name (some args) =
        .ok (st, [], .str ("Unknown tool: " ++ name))) := by
  constructor
  · intro api env sl now st args h
    simp only [handlePostMessage]
    rcases h with h | h <;> simp [h]
  · intro api env sl now st name args h
    simp only [handleRequest, h]

/-- C6 witness: a concrete unknown tool name. -/
theorem C6_witness :
    handleRequest trivApi env0 id 0 initialState "frobnicate"
        (some (Value.obj [])) =
      .ok (initialState, [], .str "Unknown tool: frobnicate") :=
  C6_amended_missing_fields.2 trivApi env0 id 0 initialState "frobnicate"
    (Value.obj []) (by rfl)

/-! ## Claim theorems: response envelope (C7) -/

/-- C7 counterexample: the no-arguments outcome and the unknown-tool
outcome are returned as bare strings, not wrapped in the
`(content: ((type: text, text: ...)))` envelope. -/
theorem C7_counterexample :
    handleRequest trivApi env0 id 0 initialState "post_message" none =
      .ok (initialState, [], .str "No arguments provided") ∧
    isEnvelope (.str "No arguments provided") = false ∧
    handleRequest trivApi env0 id 0 initialState "made_up_tool"
        (some (Value.obj [])) =
      .ok (initialState, [], .str "Unknown tool: made_up_tool") ∧
    isEnvelope (.str "Unknown tool: made_up_tool") = false := by
  refine ⟨by rfl, by rfl, by rfl, by rfl⟩

/-- C7 amended: every outcome produced by a registered handler — success
or error result alike — is wrapped in the uniform content envelope, with
string results passed through unserialized and non-string results
JSON-serialized; the no-arguments outcome, however, is returned as a
bare unwrapped string (as is the unknown-tool outcome, see the
counterexample). -/
theorem C7_amended_envelope :
    (∀ api env sl now st name args h st1 reqs v,
      lookupHandler name = some h →
      h api env sl now st args = .ok (st1, reqs, v) →
      handleRequest api env sl now st name (some args) =
        .ok (st1, reqs, clientResponse v (!(isStringValue v))) ∧
      isEnvelope (clientResponse v (!(isStringValue v))) = true ∧
      (clientResponse v (!(isStringValue v))).getField "content" =
        some (.arr [.obj [("type", .str "text"),
          ("text", if isStringValue v then v else .str (jsonStringify v))]])) ∧
    (∀ api env sl now st name,
      handleRequest api env sl now st name none =
        .ok (st, [], .str "No arguments provided") ∧
      isEnvelope (.str "No arguments provided") = false) := by
  constructor
  · intro api env sl now st name args h st1 reqs v hl hh
    refine ⟨?_, ?_, ?_⟩
    · simp only [handleRequest, hl, hh]
      rfl
    · cases v <;> rfl
    · cases v <;> rfl
  · intro api env sl now st name
    exact ⟨rfl, rfl⟩

/-- C7 witness: a registered handler's structured result is wrapped. -/
theorem C7_witness :
    handleRequest trivApi env0 id 0 initialState "get_user_profile"
        (some (Value.obj [("user_id", Value.str "U1")])) =
      .ok (⟨[("getUserProfile_0", 1)], [], 0⟩, [Req.usersProfileGet "U1"],
        clientResponse Value.null (!(isStringValue Value.null))) :=
  (C7_amended_envelope.1 trivApi env0 id 0 initialState "get_user_profile"
    (Value.obj [("user_id", Value.str "U1")]) handleGetUserProfile
    ⟨[("getUserProfile_0", 1)], [], 0⟩ [Req.usersProfileGet "U1"] Value.null
    (by rfl) (by rfl)).1

/-! ## Claim theorems: limit defaults and clamps (C8) -/

/-- C8.  `getChannels` (list mode) and `getUsers` send
`Math.min(limit ?? 100, 200)` as the limit parameter of the outbound
call, and `getChannelHistory` sends `Math.min(limit ?? 10, 1000)`;
concretely, `list_channels` with limit 500 sends limit 200, and absent
limits default to 100 (respectively 10). -/
theorem C8_limit_defaults_and_clamps :
    (∀ api env l cur t st, rlGet st.rateLimiter (rlKey "getChannels" t) < 60 →
      (env.channelIds.getD "").isEmpty = true →
      getChannels api env l cur t st =
        .ok (rlBump st (rlKey "getChannels" t),
          [Req.conversationsList (min (l.getD 100) 200) env.teamId (cursorParam cur)],
          api (Req.conversationsList (min (l.getD 100) 200) env.teamId
            (cursorParam cur)))) ∧
    (∀ api env l cur t st, rlGet st.rateLimiter (rlKey "getUsers" t) < 60 →
      getUsers api env l cur t st =
        .ok (rlBump st (rlKey "getUsers" t),
          [Req.usersList (min (l.getD 100) 200) env.teamId (cursorParam cur)],
          api (Req.usersList (min (l.getD 100) 200) env.teamId (cursorParam cur)))) ∧
    (∀ api ch l t st, rlGet st.rateLimiter (rlKey "getChannelHistory" t) < 60 →
      getChannelHistory api ch l t st =
        .ok (rlBump st (rlKey "getChannelHistory" t),
          [Req.conversationsHistory ch (min (l.getD 10) 1000)],
          api (Req.conversationsHistory ch (min (l.getD 10) 1000)))) ∧
    getChannels trivApi env0 (some 500) none 0 initialState =
      .ok (⟨[("getChannels_0", 1)], [], 0⟩,
        [Req.conversationsList 200 "T1" none], Value.null) ∧
    getChannels trivApi env0 none none 0 initialState =
      .ok (⟨[("getChannels_0", 1)], [], 0⟩,
        [Req.conversationsList 100 "T1" none], Value.null) ∧
    getUsers trivApi env0 (some 500) none 0 initialState =
      .ok (⟨[("getUsers_0", 1)], [], 0⟩,
        [Req.usersList 200 "T1" none], Value.null) ∧
    getChannelHistory trivApi "C9" none 0 initialState =
      .ok (⟨[("getChannelHistory_0", 1)], [], 0⟩,
        [Req.conversationsHistory "C9" 10], Value.null) := by
  refine ⟨?_, ?_, ?_, by rfl, by rfl, by rfl, by rfl⟩
  · intro api env l cur t st h henv
    simp only [getChannels, checkRateLimit_ok "getChannels" t st h, henv]
    simp
  · intro api env l cur t st h
    simp only [getUsers, checkRateLimit_ok "getUsers" t st h]
  · intro api ch l t st h
    simp only [getChannelHistory, checkRateLimit_ok "getChannelHistory" t st h]

/-- C8 witness: the universal clamp applied at a concrete call. -/
theorem C8_witness :
    getUsers trivApi env0 (some 7) (some "cur") 0 initialState =
      .ok (rlBump initialState (rlKey "getUsers" 0),
        [Req.usersList (min ((some (7 : Int)).getD 100) 200) env0.teamId
          (cursorParam (some "cur"))],
        trivApi (Req.usersList (min ((some (7 : Int)).getD 100) 200) env0.teamId
          (cursorParam (some "cur")))) :=
  C8_limit_defaults_and_clamps.2.1 trivApi env0 (some 7) (some "cur") 0
    initialState (by decide)

/-! ## Claim theorems: `get_users` mention enrichment (C10) -/

theorem lookup_entriesSet_self (k : String) (v : Value) :
    ∀ fs : List (String × Value), (entriesSet fs k v).lookup k = some v
  | [] => by simp [entriesSet, List.lookup]
  | (a, b) :: t => by
    by_cases ha : a = k
    · subst ha
      simp [entriesSet, List.lookup]
    · have hb : (a == k) = false := beq_eq_false_iff_ne.mpr ha
      have hkb : (k == a) = false := beq_eq_false_iff_ne.mpr (Ne.symm ha)
      simp [entriesSet, List.lookup, hb, hkb, lookup_entriesSet_self k v t]

theorem lookup_entriesSet_ne (k k' : String) (v : Value) (hne : k' ≠ k) :
    ∀ fs : List (String × Value), (entriesSet fs k v).lookup k' = fs.lookup k'
  | [] => by
    simp [entriesSet, List.lookup, beq_eq_false_iff_ne.mpr hne]
  | (a, b) :: t => by
    by_cases ha : a = k
    · subst ha
      simp [entriesSet, List.lookup, beq_eq_false_iff_ne.mpr hne]
    · have hb : (a == k) = false := beq_eq_false_iff_ne.mpr ha
      simp [entriesSet, List.lookup, hb, lookup_entriesSet_ne k k' v hne t]

/-- The member enrichment on an object member with a string name. -/
theorem addMention_obj (gs : List (String × Value)) (nm : String)
    (hnm : (Value.obj gs).getField "name" = some (.str nm)) :
    addMention (.obj gs) = .obj (entriesSet gs "mention" (.str ("@" ++ nm))) := by
  simp only [addMention, hnm]
  rfl

/-- C10.  When the `users.list` response is an object whose `members`
field is an array, `handleGetUsers` returns the same response with
`members` replaced by the member-wise enrichment; the new `members`
value is the element-wise `addMention` image, every other response field
is unchanged, and for each member that is an object with a string
`name`, the enriched member carries `mention = "@" ++ name` and agrees
with the original member on every other field. -/
theorem C10_get_users_mention_frame (api : SlackApi) (env : Env)
    (sl : String → String) (args : Value) (t : Nat) (st st1 : ClientState)
    (reqs : List Req) (fs : List (String × Value)) (ms : List Value)
    (hget : getUsers api env (argNum args "limit") (argStrOpt args "cursor") t st =
      .ok (st1, reqs, Value.obj fs))
    (hmem : (Value.obj fs).getField "members" = some (.arr ms)) :
    handleGetUsers api env sl t st args =
      .ok (st1, reqs, .obj (entriesSet fs "members" (.arr (ms.map addMention)))) ∧
    (Value.obj (entriesSet fs "members" (.arr (ms.map addMention)))).getField
      "members" = some (.arr (ms.map addMention)) ∧
    (∀ k, k ≠ "members" →
      (Value.obj (entriesSet fs "members" (.arr (ms.map addMention)))).getField k =
        (Value.obj fs).getField k) ∧
    (∀ m ∈ ms, ∀ gs nm, m = .obj gs → m.getField "name" = some (.str nm) →
      (addMention m).getField "mention" = some (.str ("@" ++ nm)) ∧
      (∀ k, k ≠ "mention" → (addMention m).getField k = m.getField k)) := by
  refine ⟨?_, ?_, ?_, ?_⟩
  · simp only [handleGetUsers, hget, mapMembers, hmem]
    simp [optTruthy, Value.truthy]
  · exact lookup_entriesSet_self "members" (.arr (ms.map addMention)) fs
  · intro k hk
    exact lookup_entriesSet_ne "members" k (.arr (ms.map addMention)) hk fs
  · intro m hm gs nm hobj hname
    subst hobj
    rw [addMention_obj gs nm hname]
    constructor
    · exact lookup_entriesSet_self "mention" (.str ("@" ++ nm)) gs
    · intro k hk
      exact lookup_entriesSet_ne "mention" k (.str ("@" ++ nm)) hk gs

/-- A user directory member used by the C10 witness. -/
def aliceMember : Value := .obj [("id", .str "U1"), ("name", .str "alice")]

/-- A remote API whose `users.list` page holds one member. -/
def usersApi : SlackApi := fun req =>
  match req with
  | .usersList _ _ _ =>
    .obj [("ok", .bool true), ("members", .arr [aliceMember])]
  | _ => .null

/-- C10 witness at a concrete `users.list` response. -/
theorem C10_witness :
    handleGetUsers usersApi env0 id 0 initialState (Value.obj []) =
      .ok (⟨[("getUsers_0", 1)], [], 0⟩, [Req.usersList 100 "T1" none],
        .obj (entriesSet [("ok", .bool true), ("members", .arr [aliceMember])]
          "members" (.arr ([aliceMember].map addMention)))) :=
  (C10_get_users_mention_frame usersApi env0 id (Value.obj []) 0 initialState
    ⟨[("getUsers_0", 1)], [], 0⟩ [Req.usersList 100 "T1" none]
    [("ok", .bool true), ("members", .arr [aliceMember])] [aliceMember]
    (by rfl) (by rfl)).1

end Slack
